import Mathlib

/-!
Verification development for the pyPavics core: calendar model
(`calendars.py`), geospatial grid algebra (`pavics/geogrid.py`) and
multi-file temporal indexing (`pavics/nctime.py`).

Conventions of the shallow embedding:
* Python floats are modelled as exact rationals (`ℚ`); numpy 1-d arrays as
  `List ℚ`, 2-d arrays as `List (List ℚ)`.
* Functions that can raise are modelled in `Except String`.
* The spherical law-of-cosines distance (`distance_lon_lat`) is transcendental
  (sin/cos/arccos); its value only ever feeds an ordering comparison against
  `maximum_distance`, so it is abstracted as an explicit function parameter
  `dist : ℚ → ℚ → ℚ → ℚ → ℚ` of the search functions.
* Shapely/Basemap geometry predicates (polygon intersection tests, projected
  areas, point containment) are external-library calls; they are modelled as
  oracle fields of a `Geometry` structure.
-/

namespace Cal

/-- `months_of_gregorian_calendar(year)` = `range(1, 13)`. -/
def months_of_gregorian_calendar (_year : ℤ) : List ℤ :=
  (List.range' 1 12).map (fun n => (n : ℤ))

/-- `temperate_seasons(year)` = `range(1, 5)`. -/
def temperate_seasons (_year : ℤ) : List ℤ :=
  (List.range' 1 4).map (fun n => (n : ℤ))

/-- `year_cycle(year)` = `[0]`. -/
def year_cycle (_year : ℤ) : List ℤ := [0]

/-- `days_in_month_360(month, year)` = `range(1, 31)`. -/
def days_in_month_360 (_month _year : ℤ) : List ℤ :=
  (List.range' 1 30).map (fun n => (n : ℤ))

/-- Month lengths table of `days_in_month_365`. -/
def daysInMonths365 : List ℕ := [31, 28, 31, 30, 31, 30, 31, 31, 30, 31, 30, 31]

/-- Month lengths table of `days_in_month_366`. -/
def daysInMonths366 : List ℕ := [31, 29, 31, 30, 31, 30, 31, 31, 30, 31, 30, 31]

/-- Python list indexing `xs[i]` with negative-index wraparound.  An index out
of range raises `IndexError` in Python; here it returns 0, which is never
exercised for months 1..12. -/
def pyIdxNat (xs : List ℕ) (i : ℤ) : ℕ :=
  if 0 ≤ i then xs.getD i.toNat 0 else xs.getD (xs.length - (-i).toNat) 0

/-- `days_in_month_365(month, year)` = `range(1, days_in_months[month-1]+1)`. -/
def days_in_month_365 (month _year : ℤ) : List ℤ :=
  (List.range' 1 (pyIdxNat daysInMonths365 (month - 1))).map (fun n => (n : ℤ))

/-- `days_in_month_366(month, year)` = `range(1, days_in_months[month-1]+1)`. -/
def days_in_month_366 (month _year : ℤ) : List ℤ :=
  (List.range' 1 (pyIdxNat daysInMonths366 (month - 1))).map (fun n => (n : ℤ))

/-- `days_in_month_julian`: leap year every 4 years. -/
def days_in_month_julian (month year : ℤ) : List ℤ :=
  if year % 4 = 0 then days_in_month_366 month year
  else days_in_month_365 month year

/-- `days_in_month_proleptic_gregorian`: leap every 4 years, except every
100 years, but still every 400 years. -/
def days_in_month_proleptic_gregorian (month year : ℤ) : List ℤ :=
  if year % 100 = 0 ∧ year % 400 ≠ 0 then days_in_month_365 month year
  else days_in_month_julian month year

/-- `days_in_month_gregorian`: proleptic Gregorian after October 1582, the
literal 21-day October for 1582, Julian before. -/
def days_in_month_gregorian (month year : ℤ) : List ℤ :=
  if year > 1582 ∨ (year = 1582 ∧ month > 10) then
    days_in_month_proleptic_gregorian month year
  else if year = 1582 ∧ month = 10 then
    [1, 2, 3, 4, 15, 16, 17, 18, 19, 20, 21, 22, 23, 24, 25, 26, 27, 28, 29, 30, 31]
  else days_in_month_julian month year

/-- `days_in_year_365(cycle, year)` = `range(1, 366)`. -/
def days_in_year_365 (_cycle _year : ℤ) : List ℤ :=
  (List.range' 1 365).map (fun n => (n : ℤ))

/-- `day_in_year(cycle, year)` = `[1]`. -/
def day_in_year (_cycle _year : ℤ) : List ℤ := [1]

/-- `is_leap_feb29(year, calendar)`: the last day enumerated for cycle 2 is 29.
The Python function receives the whole `Calendar` object but only reads its
`days_in_cycle` attribute; that attribute is passed here directly, which
avoids a negative occurrence of the `Calendar` structure in its own field. -/
def is_leap_feb29 (year : ℤ) (days_in_cycle : ℤ → ℤ → List ℤ) : Bool :=
  (days_in_cycle 2 year).getLastD 0 == 29

/-- The `Calendar` class: alias, cycle enumeration, day enumeration and an
optional leap predicate (`fn_is_leap`). -/
structure Calendar where
  calAlias : String
  cycles_in_year : ℤ → List ℤ
  days_in_cycle : ℤ → ℤ → List ℤ
  fn_is_leap : Option (ℤ → (ℤ → ℤ → List ℤ) → Bool)

/-- `Calendar.is_leap`: `CalendarError` when `fn_is_leap` is unset, otherwise
the predicate's boolean result.  (The Python message interpolates the alias;
the message text is abbreviated here.) -/
def Calendar.is_leap (c : Calendar) (year : ℤ) : Except String Bool :=
  match c.fn_is_leap with
  | none => .error ("Leap year concept not defined for calendar: " ++ c.calAlias)
  | some f => .ok (f year c.days_in_cycle)

/-- `Calendar.count_cycles_in_year`. -/
def Calendar.count_cycles_in_year (c : Calendar) (year : ℤ) : ℕ :=
  (c.cycles_in_year year).length

/-- `Calendar.count_days_in_cycle`. -/
def Calendar.count_days_in_cycle (c : Calendar) (cycle year : ℤ) : ℕ :=
  (c.days_in_cycle cycle year).length

/-- `Calendar.count_days_in_year`. -/
def Calendar.count_days_in_year (c : Calendar) (year : ℤ) : ℕ :=
  ((c.cycles_in_year year).map (fun cy => (c.days_in_cycle cy year).length)).sum

/-- Built-in calendar `'360_day'`. -/
def Cal360 : Calendar :=
  ⟨"360_day", months_of_gregorian_calendar, days_in_month_360, some is_leap_feb29⟩

/-- Built-in calendar `'noleap'`. -/
def Cal365 : Calendar :=
  ⟨"noleap", months_of_gregorian_calendar, days_in_month_365, some is_leap_feb29⟩

/-- Built-in calendar `'all_leap'`. -/
def Cal366 : Calendar :=
  ⟨"all_leap", months_of_gregorian_calendar, days_in_month_366, some is_leap_feb29⟩

/-- Built-in calendar `'julian'`. -/
def CalJulian : Calendar :=
  ⟨"julian", months_of_gregorian_calendar, days_in_month_julian, some is_leap_feb29⟩

/-- Built-in calendar `'proleptic_gregorian'`. -/
def CalProleptic : Calendar :=
  ⟨"proleptic_gregorian", months_of_gregorian_calendar,
   days_in_month_proleptic_gregorian, some is_leap_feb29⟩

/-- Built-in calendar `'gregorian'`. -/
def CalGregorian : Calendar :=
  ⟨"gregorian", months_of_gregorian_calendar, days_in_month_gregorian,
   some is_leap_feb29⟩

/-- Built-in calendar `'years_only'`. -/
def CalYearsOnly : Calendar :=
  ⟨"years_only", year_cycle, day_in_year, some is_leap_feb29⟩

/-- Built-in calendar `'months_only'` (no `fn_is_leap`). -/
def CalMonthsOnly : Calendar :=
  ⟨"months_only", months_of_gregorian_calendar, day_in_year, none⟩

/-- Built-in calendar `'seasons'` (no `fn_is_leap`). -/
def CalSeasons : Calendar :=
  ⟨"seasons", temperate_seasons, day_in_year, none⟩

/-- Built-in calendar `'365_days_no_months'` (no `fn_is_leap`). -/
def Cal365NoMonths : Calendar :=
  ⟨"365_days_no_months", year_cycle, days_in_year_365, none⟩

end Cal

deriving instance DecidableEq for Except

/-- Index of the first occurrence of the minimum of a list: `np.argmin`, and
the `np.where(arr == arr.min())[0][0]` idiom used throughout the source. -/
def firstMinIdx : List ℚ → ℕ
  | [] => 0
  | [_] => 0
  | x :: y :: rest =>
    if (y :: rest).getD (firstMinIdx (y :: rest)) 0 < x then
      firstMinIdx (y :: rest) + 1
    else 0

/-- `arr.min()` of a (nonempty) numpy array. -/
def listMin : List ℚ → ℚ
  | [] => 0
  | x :: rest => rest.foldl min x

/-- `arr.max()` of a (nonempty) numpy array. -/
def listMax : List ℚ → ℚ
  | [] => 0
  | x :: rest => rest.foldl max x

/-- `np.mod(a, b)`: remainder with the sign of `b`. -/
def npMod (a b : ℚ) : ℚ := a - b * ⌊a / b⌋

/-- `range(a, b)` over integers. -/
def intRange (a b : ℤ) : List ℤ :=
  (List.range (b - a).toNat).map (fun k => a + Int.ofNat k)

/-- `range(a, b + 1)` over naturals. -/
def natRangeIncl (a b : ℕ) : List ℕ := (List.range (b + 1 - a)).map (fun k => a + k)

/-- Minimum of a list of naturals (`arr.min()` of an index array). -/
def natListMin : List ℕ → ℕ
  | [] => 0
  | x :: rest => rest.foldl min x

/-- Maximum of a list of naturals (`arr.max()` of an index array). -/
def natListMax : List ℕ → ℕ
  | [] => 0
  | x :: rest => rest.foldl max x

/-- Python list/array indexing `xs[i]`: negative indices wrap around once,
anything out of range raises `IndexError`. -/
def pyGet (xs : List ℚ) (i : ℤ) : Except String ℚ :=
  if 0 ≤ i then
    if i < (xs.length : ℤ) then .ok (xs.getD i.toNat 0) else .error "IndexError"
  else
    if -(xs.length : ℤ) ≤ i then .ok (xs.getD (xs.length - (-i).toNat) 0)
    else .error "IndexError"

/-- Endpoint normalization of Python slicing `xs[a:b]`. -/
def pySliceIdx (n : ℕ) (a : ℤ) : ℕ :=
  if a < 0 then ((n : ℤ) + a).toNat else min a.toNat n

/-- Python slicing `xs[a:b]` (step 1). -/
def pySlice {α : Type} (xs : List α) (a b : ℤ) : List α :=
  (xs.drop (pySliceIdx xs.length a)).take
    (pySliceIdx xs.length b - pySliceIdx xs.length a)

/-- Sum of all entries of a 2-d array (`arr.sum()`). -/
def sum2 (m : List (List ℚ)) : ℚ := (m.map (fun r => r.sum)).sum

/-- Effectful map over a list in `Except`, stopping at the first error: the
Python `for` loop filling an array where each body can raise. -/
def mapME {α β : Type} (f : α → Except String β) : List α → Except String (List β)
  | [] => .ok []
  | a :: l => do
    let b ← f a
    let l' ← mapME f l
    pure (b :: l')

namespace Geogrid

/-- A numpy coordinate array of rank 1 or 2 (the only ranks the grid code
distinguishes, via `len(arr.shape)`). -/
inductive NpArr where
  | one (xs : List ℚ)
  | two (xss : List (List ℚ))

/-- Result of `find_nearest`: a single index (list of points), an index pair
(grids), or Python `None` (an unrecognized `grid_type` string falls off the
end of the function). -/
inductive FindRes where
  | single (i : ℕ)
  | pair (i j : ℕ)
  | pynone
deriving DecidableEq

/-- Result of `subdomain_grid_slices_or_points_indices`: point indices or
`None` for a list of points, slice pairs for grids.  Slice endpoints are
kept as integers because the source can produce a negative slice start
(`indices[0][0] - 1` when the first in-bbox vertex has index 0). -/
inductive SubsetRes where
  | idxList (l : List ℕ)
  | slices (slice_lon slice_lat : ℤ × ℤ)
  | pynone
deriving DecidableEq

/-- Abstract shapely geometry: its bbox `bounds` (minx, miny, maxx, maxy) and
centroid are plain data; the geometric predicates the code calls on it are
modelled as oracles.  `overlapArea ring` stands for
`lon_lat_polygon_area(Polygon(ring).intersection(geometry))`,
`intersectionDegenerate ring` for the `isinstance(..., (LineString, Point))`
test on that intersection, `intersectsPoly ring` for
`Polygon(ring).intersects(geometry)` and `containsPoint` for
`iterops.contains(geometry, points)` membership. -/
structure Geometry where
  bounds : ℚ × ℚ × ℚ × ℚ
  centroid : ℚ × ℚ
  containsPoint : ℚ → ℚ → Bool
  intersectsPoly : List (ℚ × ℚ) → Bool
  overlapArea : List (ℚ × ℚ) → ℚ
  intersectionDegenerate : List (ℚ × ℚ) → Bool

/-- Type of the abstracted `distance_lon_lat` kernel, applied elementwise:
`dist lon0 lat0 lon1 lat1`.  Its value only feeds `maximum_distance`
comparisons and the irregular-grid nearest-centroid fallback. -/
abbrev DistFn := ℚ → ℚ → ℚ → ℚ → ℚ

/-- `np.diff`. -/
def npDiff (xs : List ℚ) : List ℚ := List.zipWith (fun a b => a - b) xs.tail xs

/-- `np.all(d < 0) or np.all(d > 0)` on the consecutive differences: the
strict-monotonicity test of `detect_grid` (vacuously true for arrays of
size ≤ 1, as for numpy's `np.all` on an empty array). -/
def strictlyMonotone (xs : List ℚ) : Bool :=
  (npDiff xs).all (fun d => decide (d < 0)) ||
    (npDiff xs).all (fun d => decide (0 < d))

/-- `arr.shape` of a rank-2 array (rows are assumed rectangular). -/
def shape2 (xss : List (List ℚ)) : ℕ × ℕ := (xss.length, (xss.headD []).length)

/-- `detect_grid(lon, lat, lon_dimensions, lat_dimensions)`. -/
def detect_grid (lon lat : NpArr)
    (lon_dimensions lat_dimensions : Option (List String)) :
    Except String String :=
  match lon, lat with
  | .two lonss, .two latss =>
    if lon_dimensions = some ["lon", "bnds"] ∧
        lat_dimensions = some ["lat", "bnds"] then
      .ok "rectilinear_2d_bounds"
    else if shape2 lonss = shape2 latss then
      .ok "irregular_2d_centroids"
    else .error "Unknown grid."
  | .one lons, .one lats =>
    if lon_dimensions ≠ none then
      if lon_dimensions = lat_dimensions ∧ lons.length = lats.length then
        .ok "list_of_2d_points"
      else if lon_dimensions ≠ lat_dimensions then
        (if strictlyMonotone lons && strictlyMonotone lats then
          .ok "rectilinear_2d_centroids"
        else .error "Unknown grid.")
      else .error "Unknown grid."
    else
      if strictlyMonotone lons && strictlyMonotone lats then
        .ok "rectilinear_2d_centroids"
      else if lons.length = lats.length then .ok "list_of_2d_points"
      else .error "Unknown grid."
  | _, _ => .error "Unknown grid."

/-- `extended_x` of `rectilinear_centroids_to_vertices`: the centroid axis
padded by one linearly extrapolated value (`2*edge - next`) on each side.
The source fills a zero array and then overwrites both ends reading the
interior; for axes of length ≥ 2 (needed for the extrapolation to read real
data) that sequence of writes produces exactly this list. -/
def extendArray (x : List ℚ) : List ℚ :=
  (2 * x.getD 0 0 - x.getD 1 0) ::
    x ++ [2 * x.getD (x.length - 1) 0 - x.getD (x.length - 2) 0]

/-- The midpoint pass of `rectilinear_centroids_to_vertices` (before the
optional bound forcing/limiting): output `i` is the average of padded
values `i` and `i+1`. -/
def verticesFromCentroids1d (x : List ℚ) : List ℚ :=
  (List.range (x.length + 1)).map
    (fun i => ((extendArray x).getD i 0 + (extendArray x).getD (i + 1) 0) / 2)

/-- `forced_bounds` branch of `rectilinear_centroids_to_vertices`, one axis:
orientation detected from the position of the minimum vertex
(`np.where(x == x.min())[0][0]`), then both end vertices hard-set. -/
def applyForcedBounds (v : List ℚ) (lb ub : ℚ) : List ℚ :=
  if firstMinIdx v = 0 then (v.set 0 lb).set (v.length - 1) ub
  else (v.set 0 ub).set (v.length - 1) lb

/-- `limit_bounds` branch of `rectilinear_centroids_to_vertices`, one axis:
clamp the two end vertices into the caller-supplied range. -/
def applyLimitBounds (v : List ℚ) (lb ub : ℚ) : List ℚ :=
  if firstMinIdx v = 0 then
    let v1 := if v.getD 0 0 < lb then v.set 0 lb else v
    if v1.getD (v1.length - 1) 0 > ub then v1.set (v1.length - 1) ub else v1
  else
    let v1 := if v.getD (v.length - 1) 0 < lb then v.set (v.length - 1) lb else v
    if v1.getD 0 0 > ub then v1.set 0 ub else v1

/-- `rectilinear_centroids_to_vertices(x, y, forced_bounds, limit_bounds,
lower/upper bounds)`.  The Python bound arguments default to `None` and are
required (per the docstring) whenever one of the flags is set; they are
plain rationals here and are unused when both flags are false. -/
def rectilinear_centroids_to_vertices (x y : List ℚ)
    (forced_bounds limit_bounds : Bool) (lbx ubx lby uby : ℚ) :
    List ℚ × List ℚ :=
  let vx := verticesFromCentroids1d x
  let vy := verticesFromCentroids1d y
  if forced_bounds then
    (applyForcedBounds vx lbx ubx, applyForcedBounds vy lby uby)
  else if limit_bounds then
    (applyLimitBounds vx lbx ubx, applyLimitBounds vy lby uby)
  else (vx, vy)

/-- Adjacent-pair averages `(v[0:-1] + v[1:]) / 2.0`. -/
def adjacentAverages (v : List ℚ) : List ℚ :=
  (List.range (v.length - 1)).map
    (fun i => (v.getD i 0 + v.getD (i + 1) 0) / 2)

/-- `rectilinear_vertices_to_centroids(lon_vertices, lat_vertices)`. -/
def rectilinear_vertices_to_centroids (lon_vertices lat_vertices : List ℚ) :
    List ℚ × List ℚ :=
  (adjacentAverages lon_vertices, adjacentAverages lat_vertices)

/-- `rectilinear_2d_bounds_to_vertices(lon_bnds, lat_bnds)`:
`list(bnds[:,0]) + [bnds[-1,1]]` per axis. -/
def rectilinear_2d_bounds_to_vertices (lon_bnds lat_bnds : List (ℚ × ℚ)) :
    List ℚ × List ℚ :=
  (lon_bnds.map Prod.fst ++ [(lon_bnds.getLastD (0, 0)).2],
   lat_bnds.map Prod.fst ++ [(lat_bnds.getLastD (0, 0)).2])

/-- Rank-2 rows of an `NpArr.two` reinterpreted as CF bounds pairs (N×2). -/
def rowsToPairs (xss : List (List ℚ)) : List (ℚ × ℚ) :=
  xss.map (fun r => (r.getD 0 0, r.getD 1 0))

/-- Value at position `(i, j)` of the padded centroid grid `extended_x` of
`centroids_to_quadrilaterals_mesh`, for a source grid of shape N×M
(padded indices 0..N+1 and 0..M+1): interior copy of the centroids,
edge-wise linear extrapolation on the four borders, and corner
extrapolation from the two adjacent border values and the adjacent interior
value.  The source writes the x- and y-array corners with the three terms
in different orders; the sums are identical, so one formula serves both. -/
def extendedMeshAt (x : List (List ℚ)) (i j : ℕ) : ℚ :=
  let N := x.length
  let M := (x.headD []).length
  let g := fun a b => (x.getD a []).getD b 0
  let eTop := fun b => 2 * g 0 (b - 1) - g 1 (b - 1)
  let eBot := fun b => 2 * g (N - 1) (b - 1) - g (N - 2) (b - 1)
  let eLeft := fun a => 2 * g (a - 1) 0 - g (a - 1) 1
  let eRight := fun a => 2 * g (a - 1) (M - 1) - g (a - 1) (M - 2)
  if 1 ≤ i ∧ i ≤ N then
    (if 1 ≤ j ∧ j ≤ M then g (i - 1) (j - 1)
     else if j = 0 then eLeft i
     else eRight i)
  else if i = 0 then
    (if 1 ≤ j ∧ j ≤ M then eTop j
     else if j = 0 then eTop 1 - g 0 0 + eLeft 1
     else eTop M - g 0 (M - 1) + eRight 1)
  else
    (if 1 ≤ j ∧ j ≤ M then eBot j
     else if j = 0 then eBot 1 - g (N - 1) 0 + eLeft N
     else eBot M - g (N - 1) (M - 1) + eRight N)

/-- The 4-neighbour-average pass of `centroids_to_quadrilaterals_mesh`:
vertex `(i, j)` is the average of padded centroids `(i, j)`, `(i+1, j)`,
`(i, j+1)`, `(i+1, j+1)`. -/
def quadMeshVertices (x : List (List ℚ)) : List (List ℚ) :=
  (List.range (x.length + 1)).map (fun i =>
    (List.range ((x.headD []).length + 1)).map (fun j =>
      (extendedMeshAt x i j + extendedMeshAt x (i + 1) j +
       extendedMeshAt x i (j + 1) + extendedMeshAt x (i + 1) (j + 1)) / 4))

/-- `forced_bounds` on the x-mesh: hard-set first and last column. -/
def applyForced2dCols (m : List (List ℚ)) (lb ub : ℚ) : List (List ℚ) :=
  m.map (fun row => (row.set 0 lb).set (row.length - 1) ub)

/-- `forced_bounds` on the y-mesh: hard-set first and last row. -/
def applyForced2dRows (m : List (List ℚ)) (lb ub : ℚ) : List (List ℚ) :=
  (m.set 0 ((m.getD 0 []).map (fun _ => lb))).set (m.length - 1)
    ((m.getD (m.length - 1) []).map (fun _ => ub))

/-- `limit_bounds` on the x-mesh: clamp first and last column. -/
def applyLimit2dCols (m : List (List ℚ)) (lb ub : ℚ) : List (List ℚ) :=
  m.map (fun row =>
    let r1 := if row.getD 0 0 < lb then row.set 0 lb else row
    if r1.getD (r1.length - 1) 0 > ub then r1.set (r1.length - 1) ub else r1)

/-- `limit_bounds` on the y-mesh: clamp first and last row. -/
def applyLimit2dRows (m : List (List ℚ)) (lb ub : ℚ) : List (List ℚ) :=
  let m1 := m.set 0 ((m.getD 0 []).map (fun v => if v < lb then lb else v))
  m1.set (m1.length - 1)
    ((m1.getD (m1.length - 1) []).map (fun v => if v > ub then ub else v))

/-- `centroids_to_quadrilaterals_mesh(x, y, …)` (alias `ctoqmesh`). -/
def centroids_to_quadrilaterals_mesh (x y : List (List ℚ))
    (forced_bounds limit_bounds : Bool) (lbx ubx lby uby : ℚ) :
    List (List ℚ) × List (List ℚ) :=
  let vx := quadMeshVertices x
  let vy := quadMeshVertices y
  if forced_bounds then
    (applyForced2dCols vx lbx ubx, applyForced2dRows vy lby uby)
  else if limit_bounds then
    (applyLimit2dCols vx lbx ubx, applyLimit2dRows vy lby uby)
  else (vx, vy)

/-- One array of `quadrilaterals_mesh_to_centroids`: 4-corner averages. -/
def quadCentroidsOf (xv : List (List ℚ)) : List (List ℚ) :=
  (List.range (xv.length - 1)).map (fun i =>
    (List.range ((xv.headD []).length - 1)).map (fun j =>
      ((xv.getD i []).getD j 0 + (xv.getD (i + 1) []).getD j 0 +
       (xv.getD (i + 1) []).getD (j + 1) 0 +
       (xv.getD i []).getD (j + 1) 0) / 4))

/-- `quadrilaterals_mesh_to_centroids(x_vertices, y_vertices)`. -/
def quadrilaterals_mesh_to_centroids (xv yv : List (List ℚ)) :
    List (List ℚ) × List (List ℚ) :=
  (quadCentroidsOf xv, quadCentroidsOf yv)

/-- `_find_nearest_from_list_of_points`. -/
def _find_nearest_from_list_of_points (dist : DistFn)
    (lon_points lat_points : List ℚ) (lon_point lat_point : ℚ)
    (maximum_distance : Option ℚ) : Except String ℕ :=
  let d := List.zipWith (fun lo la => dist lo la lon_point lat_point)
    lon_points lat_points
  if d = [] then .error "ValueError"
  else
    let minimum_distance := listMin d
    match maximum_distance with
    | some md =>
      if minimum_distance > md then
        .error "No points within provided maximum distance."
      else .ok (firstMinIdx d)
    | none => .ok (firstMinIdx d)

/-- `_find_nearest_from_rectilinear_centroids`: independent per-axis search;
longitude differences are taken `mod 360` and reflected to `360 - d` above
180, latitude uses the plain absolute difference; ties resolve to the first
index.  The spherical distance of the winning centroid to the query point is
compared against `maximum_distance` when given. -/
def _find_nearest_from_rectilinear_centroids (dist : DistFn)
    (lon_centroids lat_centroids : List ℚ) (lon_point lat_point : ℚ)
    (maximum_distance : Option ℚ) : Except String (ℕ × ℕ) :=
  if lon_centroids = [] ∨ lat_centroids = [] then .error "ValueError"
  else
    let distance_lon := lon_centroids.map (fun x =>
      let d := npMod |x - lon_point| 360
      if d > 180 then |d - 360| else d)
    let i := firstMinIdx distance_lon
    let distance_lat := lat_centroids.map (fun y => |y - lat_point|)
    let j := firstMinIdx distance_lat
    let minimum_distance :=
      dist (lon_centroids.getD i 0) (lat_centroids.getD j 0) lon_point lat_point
    match maximum_distance with
    | some md =>
      if minimum_distance > md then
        .error "No points within provided maximum distance."
      else .ok (i, j)
    | none => .ok (i, j)

/-- `_find_nearest_from_rectilinear_vertices`.  The source converts the
vertices to centroids and then calls
`_find_nearest_from_rectilinear_centroids(lon_centroids, lat_centroids)`
with the required `lon_point` and `lat_point` arguments (and the
`maximum_distance`) missing, so Python raises `TypeError` before any search
can happen. -/
def _find_nearest_from_rectilinear_vertices (_dist : DistFn)
    (lon_vertices lat_vertices : List ℚ) (_lon_point _lat_point : ℚ)
    (_maximum_distance : Option ℚ) : Except String (ℕ × ℕ) :=
  let _ := rectilinear_vertices_to_centroids lon_vertices lat_vertices
  .error "TypeError: missing required positional arguments"

/-- `_find_nearest_from_irregular_centroids`: brute-force distance over the
whole 2-d grid, first row-major argmin. -/
def _find_nearest_from_irregular_centroids (dist : DistFn)
    (lon_centroids lat_centroids : List (List ℚ)) (lon_point lat_point : ℚ)
    (maximum_distance : Option ℚ) : Except String (ℕ × ℕ) :=
  let d := List.zipWith (fun lr yr =>
    List.zipWith (fun lo la => dist lo la lon_point lat_point) lr yr)
    lon_centroids lat_centroids
  let flat := d.flatten
  if flat = [] then .error "ValueError"
  else
    let minimum_distance := listMin flat
    let cols := (lon_centroids.headD []).length
    let m := firstMinIdx flat
    match maximum_distance with
    | some md =>
      if minimum_distance > md then
        .error "No points within provided maximum distance."
      else .ok (m / cols, m % cols)
    | none => .ok (m / cols, m % cols)

/-- `_find_nearest_from_irregular_vertices`: vertices to centroids, then the
irregular-centroid search (all arguments are forwarded here, unlike the
rectilinear-vertices variant). -/
def _find_nearest_from_irregular_vertices (dist : DistFn)
    (lon_vertices lat_vertices : List (List ℚ)) (lon_point lat_point : ℚ)
    (maximum_distance : Option ℚ) : Except String (ℕ × ℕ) :=
  let c := quadrilaterals_mesh_to_centroids lon_vertices lat_vertices
  _find_nearest_from_irregular_centroids dist c.1 c.2 lon_point lat_point
    maximum_distance

/-- `find_nearest`: dispatch on (possibly detected) grid type. -/
def find_nearest (dist : DistFn) (longitudes latitudes : NpArr)
    (longitude latitude : ℚ) (maximum_distance : Option ℚ)
    (grid_type : Option String)
    (lon_dimensions lat_dimensions : Option (List String)) :
    Except String FindRes := do
  let gt ← match grid_type with
    | none => detect_grid longitudes latitudes lon_dimensions lat_dimensions
    | some g => pure g
  if gt = "list_of_2d_points" then
    match longitudes, latitudes with
    | .one lons, .one lats =>
      FindRes.single <$> _find_nearest_from_list_of_points dist lons lats
        longitude latitude maximum_distance
    | _, _ => .error "shape"
  else if gt = "rectilinear_2d_centroids" then
    match longitudes, latitudes with
    | .one lons, .one lats =>
      (fun p => FindRes.pair p.1 p.2) <$>
        _find_nearest_from_rectilinear_centroids dist lons lats longitude
          latitude maximum_distance
    | _, _ => .error "shape"
  else if gt = "rectilinear_2d_bounds" then
    match longitudes, latitudes with
    | .two lonss, .two latss =>
      let v := rectilinear_2d_bounds_to_vertices (rowsToPairs lonss)
        (rowsToPairs latss)
      (fun p => FindRes.pair p.1 p.2) <$>
        _find_nearest_from_rectilinear_vertices dist v.1 v.2 longitude
          latitude maximum_distance
    | _, _ => .error "shape"
  else if gt = "rectilinear_2d_vertices" then
    match longitudes, latitudes with
    | .one lons, .one lats =>
      (fun p => FindRes.pair p.1 p.2) <$>
        _find_nearest_from_rectilinear_vertices dist lons lats longitude
          latitude maximum_distance
    | _, _ => .error "shape"
  else if gt = "irregular_2d_centroids" then
    match longitudes, latitudes with
    | .two lonss, .two latss =>
      (fun p => FindRes.pair p.1 p.2) <$>
        _find_nearest_from_irregular_centroids dist lonss latss longitude
          latitude maximum_distance
    | _, _ => .error "shape"
  else if gt = "irregular_2d_vertices" then
    match longitudes, latitudes with
    | .two lonss, .two latss =>
      (fun p => FindRes.pair p.1 p.2) <$>
        _find_nearest_from_irregular_vertices dist lonss latss longitude
          latitude maximum_distance
    | _, _ => .error "shape"
  else pure FindRes.pynone

/-- Per-axis slice computation of
`_polygon_grid_subset_from_rectilinear_vertices`: vertices inside the bbox
range give `slice(first - 1, last + 1)`; when no vertex falls in the range
(polygon narrower than one cell), the two nearest vertices to the lower
bbox edge are located and the smaller index `i` gives `slice(i, i + 1)`. -/
def axisSubsetSlice (v : List ℚ) (lo hi : ℚ) : ℤ × ℤ :=
  let idxs := (List.range v.length).filter (fun i =>
    decide (lo ≤ v.getD i 0) && decide (v.getD i 0 ≤ hi))
  match idxs with
  | [] =>
    let distances := v.map (fun x => |x - lo|)
    let i1 := firstMinIdx distances
    let d2 := distances.set i1 (listMax distances + 1)
    let i2 := firstMinIdx d2
    let i0 := if i2 < i1 then i2 else i1
    ((i0 : ℤ), (i0 : ℤ) + 1)
  | _ => ((idxs.headD 0 : ℤ) - 1, (idxs.getLastD 0 : ℤ) + 1)

/-- `_polygon_grid_subset_from_rectilinear_vertices(lon_vertices,
lat_vertices, geometry)`: four bbox guards, then per-axis slices. -/
def _polygon_grid_subset_from_rectilinear_vertices
    (lon_vertices lat_vertices : List ℚ) (geometry : Geometry) :
    Except String ((ℤ × ℤ) × (ℤ × ℤ)) :=
  if lon_vertices = [] ∨ lat_vertices = [] then .error "ValueError"
  else
    let (b0, b1, b2, b3) := geometry.bounds
    if b2 < listMin lon_vertices then .error "Geometry falls outside the grid."
    else if b0 > listMax lon_vertices then
      .error "Geometry falls outside the grid."
    else if b1 < listMin lat_vertices then
      .error "Geometry falls outside the grid."
    else if b3 > listMax lat_vertices then
      .error "Geometry falls outside the grid."
    else
      .ok (axisSubsetSlice lon_vertices b0 b2, axisSubsetSlice lat_vertices b1 b3)

/-- `_polygon_grid_subset_from_rectilinear_centroids`: centroids to vertices
(default flags), then the vertex-based subset. -/
def _polygon_grid_subset_from_rectilinear_centroids
    (lon_centroids lat_centroids : List ℚ) (geometry : Geometry) :
    Except String ((ℤ × ℤ) × (ℤ × ℤ)) :=
  let v := rectilinear_centroids_to_vertices lon_centroids lat_centroids
    false false 0 0 0 0
  _polygon_grid_subset_from_rectilinear_vertices v.1 v.2 geometry

/-- Vertex positions of a 2-d grid inside a bbox
(`np.where(c1 & c2 & c3 & c4)`, row-major pairs). -/
def inBoxIndices (lonV latV : List (List ℚ)) (b0 b1 b2 b3 : ℚ) :
    List (ℕ × ℕ) :=
  (List.range lonV.length).flatMap (fun i =>
    ((List.range ((lonV.headD []).length)).filter (fun j =>
      decide (b0 ≤ (lonV.getD i []).getD j 0) &&
      decide ((lonV.getD i []).getD j 0 ≤ b2) &&
      decide (b1 ≤ (latV.getD i []).getD j 0) &&
      decide ((latV.getD i []).getD j 0 ≤ b3))).map (fun j => (i, j)))

/-- Corner ring of grid cell `(i, j)` in the order used by the subset and
inpolygon functions: `(i,j), (i,j+1), (i+1,j+1), (i+1,j)`. -/
def quadPoly (lonV latV : List (List ℚ)) (i j : ℕ) : List (ℚ × ℚ) :=
  let gx := fun a b => (lonV.getD a []).getD b 0
  let gy := fun a b => (latV.getD a []).getD b 0
  [(gx i j, gy i j), (gx i (j + 1), gy i (j + 1)),
   (gx (i + 1) (j + 1), gy (i + 1) (j + 1)), (gx (i + 1) j, gy (i + 1) j)]

/-- All row-major positions attaining the minimum of a 2-d array
(`np.where(d == d.min())`). -/
def argminPositions (d : List (List ℚ)) : List (ℕ × ℕ) :=
  let m := listMin d.flatten
  (List.range d.length).flatMap (fun i =>
    ((List.range ((d.getD i []).length)).filter (fun j =>
      decide ((d.getD i []).getD j 0 = m))).map (fun j => (i, j)))

/-- `_polygon_grid_subset_from_irregular_vertices`: bbox-filter the vertex
positions, fall back to the nearest-centroid cell (verifying a true
intersection) when the filter is empty, then grow each side of the
bbox-derived index box by one cell wherever the adjacent ring of cells
geometrically intersects the polygon. -/
def _polygon_grid_subset_from_irregular_vertices (dist : DistFn)
    (lon_vertices lat_vertices : List (List ℚ)) (geometry : Geometry)
    (lon_centroids lat_centroids : Option (List (List ℚ))) :
    Except String ((ℤ × ℤ) × (ℤ × ℤ)) := do
  let (b0, b1, b2, b3) := geometry.bounds
  let inbox := inBoxIndices lon_vertices lat_vertices b0 b1 b2 b3
  let indices ←
    if inbox = [] then do
      let cpair := match lon_centroids, lat_centroids with
        | some a, some b => (a, b)
        | _, _ => quadrilaterals_mesh_to_centroids lon_vertices lat_vertices
      let d := List.zipWith (fun lr yr =>
        List.zipWith (fun lo la =>
          dist lo la geometry.centroid.1 geometry.centroid.2) lr yr)
        cpair.1 cpair.2
      if d.flatten = [] then .error "ValueError"
      else
        let cols := (cpair.1.headD []).length
        let m := firstMinIdx d.flatten
        if geometry.intersectsPoly
            (quadPoly lon_vertices lat_vertices (m / cols) (m % cols)) then
          pure (argminPositions d)
        else .error "Geometry falls outside the grid."
    else pure inbox
  let rows := indices.map Prod.fst
  let cols := indices.map Prod.snd
  let rowsMin := natListMin rows
  let rowsMax := natListMax rows
  let colsMin := natListMin cols
  let colsMax := natListMax cols
  let search_i_min := rowsMin - 1
  let search_i_max := min (lon_vertices.length - 2) rowsMax
  let search_j_min := colsMin - 1
  let search_j_max := min ((lon_vertices.headD []).length - 2) colsMax
  let min1 : ℕ :=
    if rowsMin = 0 then 0
    else if (natRangeIncl search_j_min search_j_max).any (fun j =>
        geometry.intersectsPoly
          (quadPoly lon_vertices lat_vertices (rowsMin - 1) j)) then
      rowsMin - 1
    else rowsMin
  let min2 : ℕ :=
    if colsMin = 0 then 0
    else if (natRangeIncl search_i_min search_i_max).any (fun i =>
        geometry.intersectsPoly
          (quadPoly lon_vertices lat_vertices i (colsMin - 1))) then
      colsMin - 1
    else colsMin
  let max1 : ℕ :=
    if rowsMax = lon_vertices.length - 1 then lon_vertices.length - 1
    else if (natRangeIncl search_j_min search_j_max).any (fun j =>
        geometry.intersectsPoly
          (quadPoly lon_vertices lat_vertices rowsMax j)) then
      rowsMax + 1
    else rowsMax
  let max2 : ℕ :=
    if colsMax = (lon_vertices.headD []).length - 1 then
      (lon_vertices.headD []).length - 1
    else if (natRangeIncl search_i_min search_i_max).any (fun i =>
        geometry.intersectsPoly
          (quadPoly lon_vertices lat_vertices i colsMax)) then
      colsMax + 1
    else colsMax
  pure (((min1 : ℤ), (max1 : ℤ)), ((min2 : ℤ), (max2 : ℤ)))

/-- `_polygon_grid_subset_from_irregular_centroids`: centroids to mesh
(default flags) when vertices are not supplied, then the vertex-based
subset with the centroids forwarded. -/
def _polygon_grid_subset_from_irregular_centroids (dist : DistFn)
    (lon_centroids lat_centroids : List (List ℚ)) (geometry : Geometry)
    (lon_vertices lat_vertices : Option (List (List ℚ))) :
    Except String ((ℤ × ℤ) × (ℤ × ℤ)) :=
  let v := match lon_vertices, lat_vertices with
    | some a, some b => (a, b)
    | _, _ => centroids_to_quadrilaterals_mesh lon_centroids lat_centroids
        false false 0 0 0 0
  _polygon_grid_subset_from_irregular_vertices dist v.1 v.2 geometry
    (some lon_centroids) (some lat_centroids)

/-- `_inpolygon_from_list_of_points`: bbox filter, `None` when empty,
otherwise the indices whose points the geometry contains. -/
def _inpolygon_from_list_of_points (lon_points lat_points : List ℚ)
    (geometry : Geometry) : SubsetRes :=
  let (b0, b1, b2, b3) := geometry.bounds
  let idxs := (List.range lon_points.length).filter (fun i =>
    decide (b0 ≤ lon_points.getD i 0) && decide (lon_points.getD i 0 ≤ b2) &&
    decide (b1 ≤ lat_points.getD i 0) && decide (lat_points.getD i 0 ≤ b3))
  if idxs = [] then .pynone
  else .idxList (idxs.filter (fun i =>
    geometry.containsPoint (lon_points.getD i 0) (lat_points.getD i 0)))

/-- `subdomain_grid_slices_or_points_indices`: dispatch on (possibly
detected) grid type. -/
def subdomain_grid_slices_or_points_indices (dist : DistFn) (lon lat : NpArr)
    (geometry : Geometry) (grid_type : Option String)
    (lon_dimensions lat_dimensions : Option (List String)) :
    Except String SubsetRes := do
  let gt ← match grid_type with
    | none => detect_grid lon lat lon_dimensions lat_dimensions
    | some g => pure g
  if gt = "list_of_2d_points" then
    match lon, lat with
    | .one lons, .one lats =>
      pure (_inpolygon_from_list_of_points lons lats geometry)
    | _, _ => .error "shape"
  else if gt = "rectilinear_2d_centroids" then
    match lon, lat with
    | .one lons, .one lats =>
      (fun p => SubsetRes.slices p.1 p.2) <$>
        _polygon_grid_subset_from_rectilinear_centroids lons lats geometry
    | _, _ => .error "shape"
  else if gt = "rectilinear_2d_bounds" then
    match lon, lat with
    | .two lonss, .two latss =>
      let v := rectilinear_2d_bounds_to_vertices (rowsToPairs lonss)
        (rowsToPairs latss)
      (fun p => SubsetRes.slices p.1 p.2) <$>
        _polygon_grid_subset_from_rectilinear_vertices v.1 v.2 geometry
    | _, _ => .error "shape"
  else if gt = "rectilinear_2d_vertices" then
    match lon, lat with
    | .one lons, .one lats =>
      (fun p => SubsetRes.slices p.1 p.2) <$>
        _polygon_grid_subset_from_rectilinear_vertices lons lats geometry
    | _, _ => .error "shape"
  else if gt = "irregular_2d_centroids" then
    match lon, lat with
    | .two lonss, .two latss =>
      (fun p => SubsetRes.slices p.1 p.2) <$>
        _polygon_grid_subset_from_irregular_centroids dist lonss latss
          geometry none none
    | _, _ => .error "shape"
  else if gt = "irregular_2d_vertices" then
    match lon, lat with
    | .two lonss, .two latss =>
      (fun p => SubsetRes.slices p.1 p.2) <$>
        _polygon_grid_subset_from_irregular_vertices dist lonss latss
          geometry none none
    | _, _ => .error "shape"
  else pure SubsetRes.pynone

/-- Corner ring of a rectilinear grid cell `(i, j)` built by
`spatial_weighted_average`, in its order `(i,j), (i+1,j), (i+1,j+1),
(i,j+1)` (longitude index first); the vertex lookups follow Python indexing
and can raise `IndexError`. -/
def rectCellRing (lonV latV : List ℚ) (i j : ℤ) :
    Except String (List (ℚ × ℚ)) := do
  let x0 ← pyGet lonV i
  let x1 ← pyGet lonV (i + 1)
  let y0 ← pyGet latV j
  let y1 ← pyGet latV (j + 1)
  pure [(x0, y0), (x1, y0), (x1, y1), (x0, y1)]

/-- Corner ring of an irregular grid cell `(i, j)` built by
`spatial_weighted_average`, in its order `(i,j), (i+1,j), (i+1,j+1),
(i,j+1)`. -/
def quadPolyW (lonV latV : List (List ℚ)) (i j : ℕ) : List (ℚ × ℚ) :=
  let gx := fun a b => (lonV.getD a []).getD b 0
  let gy := fun a b => (latV.getD a []).getD b 0
  [(gx i j, gy i j), (gx (i + 1) j, gy (i + 1) j),
   (gx (i + 1) (j + 1), gy (i + 1) (j + 1)), (gx i (j + 1), gy i (j + 1))]

/-- Subset slices and raw (pre-normalization) weight matrix of the
rectilinear branch of `spatial_weighted_average`: `weights[j, i] =
area(cell ∩ polygon) / area(cell)` for `i` in the longitude slice and `j`
in the latitude slice.  The source fills the matrix with `i` as the outer
loop; building it row-by-row (`j` outer) yields the same matrix, and an
out-of-range vertex index faults in either iteration order. -/
def spatialWeightsRect (geometry : Geometry)
    (polyArea : List (ℚ × ℚ) → ℚ) (lon_vertices lat_vertices : List ℚ) :
    Except String ((ℤ × ℤ) × (ℤ × ℤ) × List (List ℚ)) := do
  let sl ← _polygon_grid_subset_from_rectilinear_vertices lon_vertices
    lat_vertices geometry
  let w ← mapME (fun j =>
    mapME (fun i => do
      let pol1 ← rectCellRing lon_vertices lat_vertices i j
      pure (geometry.overlapArea pol1 / polyArea pol1)) (intRange sl.1.1 sl.1.2))
    (intRange sl.2.1 sl.2.2)
  pure (sl.1, sl.2, w)

/-- Subset slices and raw weight matrix of the irregular branch of
`spatial_weighted_average`: `weights[i, j]`, with degenerate intersections
(a line or a point) contributing zero area.  The slices produced by the
irregular subsetter lie within the vertex array bounds by construction, so
plain total indexing is used. -/
def spatialWeightsIrreg (dist : DistFn) (geometry : Geometry)
    (polyArea : List (ℚ × ℚ) → ℚ) (lonV latV : List (List ℚ)) :
    Except String ((ℤ × ℤ) × (ℤ × ℤ) × List (List ℚ)) := do
  let sl ← _polygon_grid_subset_from_irregular_vertices dist lonV latV
    geometry none none
  let w := (intRange sl.1.1 sl.1.2).map (fun i =>
    (intRange sl.2.1 sl.2.2).map (fun j =>
      let pol1 := quadPolyW lonV latV i.toNat j.toNat
      let cell_area := polyArea pol1
      let area := if geometry.intersectionDegenerate pol1 then 0
        else geometry.overlapArea pol1
      area / cell_area))
  pure (sl.1, sl.2, w)

/-- `spatial_weighted_average(lon_vertices, lat_vertices, geometry, field)`:
grid type from the rank of the vertex arrays, per-cell area-overlap weights
over the subset slices, renormalization by the total weight, then the
weighted sum of the sliced field.  `polyArea ring` stands for
`lon_lat_polygon_area(Polygon(ring))` (a Basemap Mollweide-projected area,
abstracted as an oracle).  The field is modelled as 2-d and only the
`spatial_indices=None` branch is embedded (the other branch tiles weights
over extra non-spatial field axes; no claim exercises it).  In ℚ the
renormalization `weights / weights.sum()` with a zero total yields zeros
where numpy would produce NaNs; both disagree with any claimed value. -/
def spatial_weighted_average (dist : DistFn) (geometry : Geometry)
    (polyArea : List (ℚ × ℚ) → ℚ) (lon_vertices lat_vertices : NpArr)
    (field : List (List ℚ)) : Except String ℚ :=
  match lon_vertices, lat_vertices with
  | .one lonV, .one latV => do
    let r ← spatialWeightsRect geometry polyArea lonV latV
    let total := sum2 r.2.2
    let wn := r.2.2.map (fun row => row.map (fun a => a / total))
    let fieldSub := (pySlice field r.2.1.1 r.2.1.2).map
      (fun row => pySlice row r.1.1 r.1.2)
    pure (sum2 (List.zipWith (fun fr wr =>
      List.zipWith (fun a b => a * b) fr wr) fieldSub wn))
  | .two lonV, .two latV => do
    let r ← spatialWeightsIrreg dist geometry polyArea lonV latV
    let total := sum2 r.2.2
    let wn := r.2.2.map (fun row => row.map (fun a => a / total))
    let fieldSub := (pySlice field r.1.1 r.1.2).map
      (fun row => pySlice row r.2.1.1 r.2.1.2)
    pure (sum2 (List.zipWith (fun fr wr =>
      List.zipWith (fun a b => a * b) fr wr) fieldSub wn))
  | _, _ => .error "shape"

/-- A concrete dummy for the abstracted spherical-distance kernel, used to
instantiate closed statements whose evaluation never consults it. -/
def distZero : DistFn := fun _ _ _ _ => 0

/-- A concrete dummy cell-area oracle (every ring has projected area 1). -/
def polyAreaOne : List (ℚ × ℚ) → ℚ := fun _ => 1

/-- Geometry oracle for the triangle `(3/2, 1/2), (5/2, 1/2), (5/2, 3/2)` on
the 2×2 grid with vertices `[0, 1, 2]` per axis: its bbox
`(3/2, 1/2, 5/2, 3/2)` extends past the last longitude vertex without
triggering any of the bbox guards, so the weight loop reads
`lon_vertices[3]` and faults; the area oracles are never reached. -/
def geomPastEdge : Geometry :=
  ⟨(3/2, 1/2, 5/2, 3/2), (2, 1), fun _ _ => false, fun _ => true,
   fun _ => 1/2, fun _ => false⟩

/-- Geometry oracle for a polygon whose bbox `(1/4, 1/4, 3/4, 3/4)` selects
the single cell `[0,1]×[0,1]` of the grid with vertices `[0, 1, 2]` per
axis, and whose overlap area equals the cell area (weight 1 on that cell,
nothing else in the candidate set). -/
def geomSingleCell : Geometry :=
  ⟨(1/4, 1/4, 3/4, 3/4), (1/2, 1/2), fun _ _ => false, fun _ => true,
   fun _ => 1, fun _ => false⟩

/-- Geometry oracle with bbox `(1/2, -1/2, 3/2, 3/2)`: it overlaps the
vertex range `[0, 2]` of the test grid on both axes (a real such polygon is
the rectangle with those corners), yet its latitude minimum `-1/2` lies
below the smallest latitude vertex. -/
def geomLatBelow : Geometry :=
  ⟨(1/2, -1/2, 3/2, 3/2), (1, 1/2), fun _ _ => false, fun _ => true,
   fun _ => 0, fun _ => false⟩

/-- Geometry oracle with bbox `(5, 0, 6, 1)`, lying entirely to the right of
the test grid in longitude. -/
def geomRightOf : Geometry :=
  ⟨(5, 0, 6, 1), (11/2, 1/2), fun _ _ => false, fun _ => true,
   fun _ => 0, fun _ => false⟩

end Geogrid

namespace Nctime

/-- `nctime[0]` of a file's time axis. -/
def segStart (s : List ℚ) : ℚ := s.headD 0

/-- `nctime[-1]` of a file's time axis. -/
def segEnd (s : List ℚ) : ℚ := s.getLastD 0

/-- `np.abs(nctime[:] - t)`. -/
def absGaps (s : List ℚ) (t : ℚ) : List ℚ := s.map (fun v => |v - t|)

/-- `int((np.abs(nctime[:] - t)).argmin())`. -/
def nearestIdx (s : List ℚ) (t : ℚ) : ℕ := firstMinIdx (absGaps s t)

/-- `abs(nctime[tn] - t)` at the arg-min index. -/
def nearestGap (s : List ℚ) (t : ℚ) : ℚ := |s.getD (nearestIdx s t) 0 - t|

/-- Loop of `_nearest_time_from_netcdf_time_units` over the file sequence.
Each file is represented by its time values already converted to the first
file's units/calendar (the conversion itself is an external netCDF4 call).
The accumulator carries the enumeration index `i` and, when a file has
already been scanned, `(previous_end_time, previous_nt)`.  Python's
`threshold and (...)` guard is false both for `None` and for a zero
threshold, which is modelled explicitly.  An empty file raises `IndexError`
at `nctime[0]`; an empty file list leaves the after-loop variables
undefined (`NameError`). -/
def ntLoop (t : ℚ) (threshold : Option ℚ) :
    List (List ℚ) → ℕ → Option (ℚ × ℕ) → Except String (ℕ × ℕ)
  | [], i, prev =>
    match prev with
    | none => .error "NameError"
    | some (pend, pnt) =>
      match threshold with
      | some th =>
        if th ≠ 0 ∧ t - pend > th then .error "No value below threshold."
        else .ok (i - 1, pnt - 1)
      | none => .ok (i - 1, pnt - 1)
  | s :: rest, i, prev =>
    if s = [] then .error "IndexError"
    else if segStart s ≤ t ∧ t ≤ segEnd s then
      let tn := nearestIdx s t
      match threshold with
      | some th =>
        if th ≠ 0 ∧ |s.getD tn 0 - t| > th then
          .error "No value below threshold."
        else .ok (i, tn)
      | none => .ok (i, tn)
    else if t < segStart s then
      match prev with
      | some (pend, pnt) =>
        let pdiff := |pend - t|
        let ndiff := |segStart s - t|
        if pdiff ≤ ndiff then
          match threshold with
          | some th =>
            if th ≠ 0 ∧ pdiff > th then .error "No value below threshold."
            else .ok (i - 1, pnt - 1)
          | none => .ok (i - 1, pnt - 1)
        else
          match threshold with
          | some th =>
            if th ≠ 0 ∧ ndiff > th then .error "No value below threshold."
            else .ok (i, 0)
          | none => .ok (i, 0)
      | none =>
        match threshold with
        | some th =>
          if th ≠ 0 ∧ segStart s - t > th then
            .error "No value below threshold."
          else ntLoop t threshold rest (i + 1) (some (segEnd s, s.length))
        | none => ntLoop t threshold rest (i + 1) (some (segEnd s, s.length))
    else ntLoop t threshold rest (i + 1) (some (segEnd s, s.length))

/-- `nearest_time(nc_files, t, threshold)` for a numeric `t` (the string and
structured-date forms are converted to a numeric value by external netCDF4
calls before reaching `_nearest_time_from_netcdf_time_units`). -/
def nearest_time (nc_files : List (List ℚ)) (t : ℚ)
    (threshold : Option ℚ) : Except String (ℕ × ℕ) :=
  ntLoop t threshold nc_files 0 none

/-- Caller-enforced invariant on a multi-file time axis: every file has a
nonempty, non-decreasing time variable and consecutive files do not
overlap (each file ends strictly before the next one starts). -/
def SegsWF (ss : List (List ℚ)) : Prop :=
  (∀ s ∈ ss, s ≠ [] ∧ s.Sorted (· ≤ ·)) ∧
  List.Chain' (fun a b => segEnd a < segStart b) ss

/-- `j` is the first index of `s` minimizing `|s[j] - t|`. -/
def IsFirstArgmin (s : List ℚ) (t : ℚ) (j : ℕ) : Prop :=
  j < s.length ∧
  (∀ m, m < s.length → |s.getD j 0 - t| ≤ |s.getD m 0 - t|) ∧
  (∀ m, m < j → |s.getD j 0 - t| < |s.getD m 0 - t|)

end Nctime

/-!
## Helper lemmas
-/

theorem getD_range_map (n : ℕ) (f : ℕ → ℚ) (i : ℕ) (h : i < n) :
    ((List.range n).map f).getD i 0 = f i := by
  rw [List.getD_eq_getElem?_getD, List.getElem?_map, List.getElem?_range h]
  rfl

theorem getD_map_of_lt {α β : Type} (f : α → β) (l : List α) (m : ℕ)
    (h : m < l.length) (d : β) (d' : α) :
    (l.map f).getD m d = f (l.getD m d') := by
  rw [List.getD_eq_getElem?_getD, List.getElem?_map,
    List.getElem?_eq_getElem h, List.getD_eq_getElem?_getD,
    List.getElem?_eq_getElem h]
  rfl

theorem getD_eq_getD_of_lt {α : Type} (l : List α) (m : ℕ)
    (h : m < l.length) (d d' : α) : l.getD m d = l.getD m d' := by
  rw [List.getD_eq_getElem?_getD, List.getD_eq_getElem?_getD,
    List.getElem?_eq_getElem h]
  rfl

theorem firstMinIdx_lt_length :
    ∀ (xs : List ℚ), xs ≠ [] → firstMinIdx xs < xs.length
  | [], h => absurd rfl h
  | [_], _ => by simp [firstMinIdx]
  | x :: y :: rest, _ => by
    have ih := firstMinIdx_lt_length (y :: rest) (by simp)
    rw [firstMinIdx]
    by_cases hc : (y :: rest).getD (firstMinIdx (y :: rest)) 0 < x
    · rw [if_pos hc]
      simpa using Nat.succ_lt_succ ih
    · rw [if_neg hc]
      simp

theorem firstMinIdx_le :
    ∀ (xs : List ℚ) (m : ℕ), m < xs.length →
      xs.getD (firstMinIdx xs) 0 ≤ xs.getD m 0
  | [], m, h => by simp at h
  | [x], m, h => by
    have hm : m = 0 := by simpa using Nat.lt_one_iff.mp (by simpa using h)
    subst hm
    simp [firstMinIdx]
  | x :: y :: rest, m, h => by
    rw [firstMinIdx]
    by_cases hc : (y :: rest).getD (firstMinIdx (y :: rest)) 0 < x
    · rw [if_pos hc]
      cases m with
      | zero => simpa using le_of_lt hc
      | succ m' =>
        have := firstMinIdx_le (y :: rest) m' (by simpa using h)
        simpa using this
    · rw [if_neg hc]
      push_neg at hc
      cases m with
      | zero => simp
      | succ m' =>
        have := firstMinIdx_le (y :: rest) m' (by simpa using h)
        simp only [List.getD_cons_zero, List.getD_cons_succ]
        exact le_trans hc this

theorem firstMinIdx_first :
    ∀ (xs : List ℚ) (m : ℕ), m < firstMinIdx xs →
      xs.getD (firstMinIdx xs) 0 < xs.getD m 0
  | [], m, h => by simp [firstMinIdx] at h
  | [x], m, h => by simp [firstMinIdx] at h
  | x :: y :: rest, m, h => by
    rw [firstMinIdx] at h ⊢
    by_cases hc : (y :: rest).getD (firstMinIdx (y :: rest)) 0 < x
    · rw [if_pos hc] at h ⊢
      cases m with
      | zero => simpa using hc
      | succ m' =>
        have := firstMinIdx_first (y :: rest) m' (by omega)
        simpa using this
    · rw [if_neg hc] at h
      omega

theorem getLastD_mem : ∀ (l : List ℚ) (d : ℚ), l ≠ [] → l.getLastD d ∈ l
  | [], _, h => absurd rfl h
  | a :: t, d, _ => by
    have h := List.getLastD_mem_cons t a
    rw [List.getLastD_cons]
    simpa using h

theorem sorted_headD_le (s : List ℚ) (hne : s ≠ []) (hs : s.Sorted (· ≤ ·))
    (x : ℚ) (hx : x ∈ s) : s.headD 0 ≤ x := by
  cases s with
  | nil => exact absurd rfl hne
  | cons a t =>
    rcases List.mem_cons.mp hx with rfl | hmem
    · simp
    · simpa using (List.sorted_cons.mp hs).1 x hmem
namespace Cal

/-- C6: `days_in_month_gregorian` delegates to the proleptic-Gregorian rule
when `year > 1582` or (`year = 1582` and `month > 10`), to the Julian rule
when `year < 1582` or (`year = 1582` and `month < 10`), and for October 1582
returns the literal 21-element day list omitting days 5 through 14. -/
theorem days_in_month_gregorian_spec (month year : ℤ)
    (h1 : 1 ≤ month) (h2 : month ≤ 12) :
    ((year > 1582 ∨ (year = 1582 ∧ month > 10)) →
      days_in_month_gregorian month year =
        days_in_month_proleptic_gregorian month year) ∧
    ((year < 1582 ∨ (year = 1582 ∧ month < 10)) →
      days_in_month_gregorian month year = days_in_month_julian month year) ∧
    days_in_month_gregorian 10 1582 =
      [1, 2, 3, 4, 15, 16, 17, 18, 19, 20, 21, 22, 23, 24, 25, 26, 27, 28,
       29, 30, 31] ∧
    (days_in_month_gregorian 10 1582).length = 21 := by
  refine ⟨fun h => ?_, fun h => ?_, by decide, by decide⟩
  · rw [days_in_month_gregorian, if_pos h]
  · have hnot1 : ¬(year > 1582 ∨ (year = 1582 ∧ month > 10)) := by omega
    have hnot2 : ¬(year = 1582 ∧ month = 10) := by omega
    rw [days_in_month_gregorian, if_neg hnot1, if_neg hnot2]

/-- Witness for `days_in_month_gregorian_spec` at `month = 11`, `year = 1582`:
November 1582 already follows the proleptic-Gregorian rule, and the October
1582 literal holds. -/
theorem days_in_month_gregorian_spec_witness :
    days_in_month_gregorian 11 1582 =
      days_in_month_proleptic_gregorian 11 1582 ∧
    days_in_month_gregorian 10 1582 =
      [1, 2, 3, 4, 15, 16, 17, 18, 19, 20, 21, 22, 23, 24, 25, 26, 27, 28,
       29, 30, 31] :=
  ⟨(days_in_month_gregorian_spec 11 1582 (by decide) (by decide)).1
      (Or.inr ⟨rfl, by decide⟩),
   (days_in_month_gregorian_spec 11 1582 (by decide) (by decide)).2.2.1⟩

/-- C10: over the ten built-in calendars, `Calendar.is_leap` fails with
`CalendarError` exactly for the three calendars whose `fn_is_leap` is unset
(`months_only`, `seasons`, `365_days_no_months`); every other built-in
returns the result of `is_leap_feb29`, which checks whether the last day
enumerated for cycle 2 (the February-equivalent) is 29. -/
theorem calendar_is_leap_spec (year : ℤ) :
    CalMonthsOnly.is_leap year =
      .error "Leap year concept not defined for calendar: months_only" ∧
    CalSeasons.is_leap year =
      .error "Leap year concept not defined for calendar: seasons" ∧
    Cal365NoMonths.is_leap year =
      .error "Leap year concept not defined for calendar: 365_days_no_months" ∧
    Cal360.is_leap year = .ok (is_leap_feb29 year Cal360.days_in_cycle) ∧
    Cal365.is_leap year = .ok (is_leap_feb29 year Cal365.days_in_cycle) ∧
    Cal366.is_leap year = .ok (is_leap_feb29 year Cal366.days_in_cycle) ∧
    CalJulian.is_leap year =
      .ok (is_leap_feb29 year CalJulian.days_in_cycle) ∧
    CalProleptic.is_leap year =
      .ok (is_leap_feb29 year CalProleptic.days_in_cycle) ∧
    CalGregorian.is_leap year =
      .ok (is_leap_feb29 year CalGregorian.days_in_cycle) ∧
    CalYearsOnly.is_leap year =
      .ok (is_leap_feb29 year CalYearsOnly.days_in_cycle) ∧
    (∀ dic : ℤ → ℤ → List ℤ,
      is_leap_feb29 year dic = ((dic 2 year).getLastD 0 == 29)) :=
  ⟨rfl, rfl, rfl, rfl, rfl, rfl, rfl, rfl, rfl, rfl, fun _ => rfl⟩

end Cal

namespace Geogrid

section ConcreteEvaluation

attribute [local semireducible] Rat.add Rat.sub Rat.mul Rat.inv Rat.ofScientific

/-- C7: on the rectilinear centroid grid with longitudes `[180..187]` and
latitudes `[0..5]`, `find_nearest` (grid type detected) at the query point
`(-174.9, 1)` returns the index pair `(5, 1)`: the longitude distance is
taken modulo 360 and reflected to `360 - d` above 180, so longitude 185
(index 5) is the nearest meridian across the antimeridian, while latitude
uses the plain absolute difference (index 1).  The statement holds for
every distance kernel because no `maximum_distance` is given. -/
theorem find_nearest_antimeridian_spec :
    ∀ dist : DistFn,
      find_nearest dist (.one [180, 181, 182, 183, 184, 185, 186, 187])
        (.one [0, 1, 2, 3, 4, 5]) (-1749/10) 1 none none none none =
        .ok (.pair 5 1) := by
  intro dist
  set_option maxRecDepth 400000 in rfl

/-- C1: `find_nearest` on a rectilinear vertex grid raises `TypeError` for
every query — `_find_nearest_from_rectilinear_vertices` converts the
vertices to centroids but then invokes the centroid search without the
required query-point arguments — whereas the rectilinear-centroid search on
those same centroids with the same query succeeds (here with `(0, 0)`). -/
theorem find_nearest_vertices_drops_query :
    ∀ dist : DistFn,
      (find_nearest dist (.one [0, 1, 2]) (.one [10, 11, 12]) (3/5) (53/5)
        none (some "rectilinear_2d_vertices") none none =
        .error "TypeError: missing required positional arguments") ∧
      (_find_nearest_from_rectilinear_centroids dist
        (rectilinear_vertices_to_centroids [0, 1, 2] [10, 11, 12]).1
        (rectilinear_vertices_to_centroids [0, 1, 2] [10, 11, 12]).2
        (3/5) (53/5) none = .ok (0, 0)) := by
  intro dist
  constructor
  · set_option maxRecDepth 400000 in rfl
  · set_option maxRecDepth 400000 in rfl

/-- Counterexample to C5 as stated: with no dimension-name hints, sizes that
differ and a non-monotonic longitude array, `detect_grid` raises
`GeogridError("Unknown grid.")` instead of returning
`'rectilinear_2d_centroids'`. -/
theorem detect_grid_size_mismatch_cex :
    ([0, 1, 0] : List ℚ).length ≠ ([0, 1] : List ℚ).length ∧
    strictlyMonotone [0, 1, 0] = false ∧
    detect_grid (.one [0, 1, 0]) (.one [0, 1]) none none =
      .error "Unknown grid." ∧
    detect_grid (.one [0, 1, 0]) (.one [0, 1]) none none ≠
      .ok "rectilinear_2d_centroids" := by
  set_option maxRecDepth 400000 in decide

/-- Counterexample to C2 as stated: for the centroid axes `[0, 1, 10]`, the
vertices-then-centroids round trip returns `3` at the interior index 1,
not the original centroid `1` (the interior round-trip value is the
weighted average `(x[i-1] + 2*x[i] + x[i+1]) / 4`). -/
theorem roundtrip_interior_cex :
    (rectilinear_vertices_to_centroids
        (rectilinear_centroids_to_vertices [0, 1, 10] [0, 1, 10]
          false false 0 0 0 0).1
        (rectilinear_centroids_to_vertices [0, 1, 10] [0, 1, 10]
          false false 0 0 0 0).2).1.getD 1 0 = 3 ∧
    ([0, 1, 10] : List ℚ).getD 1 0 = 1 ∧ (3 : ℚ) ≠ 1 := by
  set_option maxRecDepth 400000 in decide

end ConcreteEvaluation

end Geogrid

namespace Geogrid

/-- C5 (amended): classification of two 1-d coordinate arrays by
`detect_grid`.  With dimension-name hints: equal hints and equal sizes give
`'list_of_2d_points'`; distinct hints with both arrays strictly monotonic
give `'rectilinear_2d_centroids'`.  With no hints: both arrays strictly
monotonic gives `'rectilinear_2d_centroids'`; otherwise equal sizes give
`'list_of_2d_points'`.  Every remaining case — including, contrary to the
original claim, differing sizes with a non-monotonic array and no hints —
fails with `GeogridError("Unknown grid.")`. -/
theorem detect_grid_1d_spec (lon lat : List ℚ)
    (lonDims latDims : Option (List String)) :
    (lonDims ≠ none → lonDims = latDims → lon.length = lat.length →
      detect_grid (.one lon) (.one lat) lonDims latDims =
        .ok "list_of_2d_points") ∧
    (lonDims ≠ none → lonDims ≠ latDims →
      strictlyMonotone lon = true → strictlyMonotone lat = true →
      detect_grid (.one lon) (.one lat) lonDims latDims =
        .ok "rectilinear_2d_centroids") ∧
    (lonDims ≠ none → lonDims ≠ latDims →
      ¬(strictlyMonotone lon = true ∧ strictlyMonotone lat = true) →
      detect_grid (.one lon) (.one lat) lonDims latDims =
        .error "Unknown grid.") ∧
    (lonDims ≠ none → lonDims = latDims → lon.length ≠ lat.length →
      detect_grid (.one lon) (.one lat) lonDims latDims =
        .error "Unknown grid.") ∧
    (lonDims = none → strictlyMonotone lon = true →
      strictlyMonotone lat = true →
      detect_grid (.one lon) (.one lat) lonDims latDims =
        .ok "rectilinear_2d_centroids") ∧
    (lonDims = none → ¬(strictlyMonotone lon = true ∧
      strictlyMonotone lat = true) → lon.length = lat.length →
      detect_grid (.one lon) (.one lat) lonDims latDims =
        .ok "list_of_2d_points") ∧
    (lonDims = none → ¬(strictlyMonotone lon = true ∧
      strictlyMonotone lat = true) → lon.length ≠ lat.length →
      detect_grid (.one lon) (.one lat) lonDims latDims =
        .error "Unknown grid.") := by
  have hmb : ∀ a b : Bool, ¬(a = true ∧ b = true) → ¬((a && b) = true) := by
    intro a b h hab
    exact h (by simpa [Bool.and_eq_true] using hab)
  refine ⟨?_, ?_, ?_, ?_, ?_, ?_, ?_⟩
  · intro h1 h2 h3
    simp only [detect_grid]
    rw [if_pos h1, if_pos ⟨h2, h3⟩]
  · intro h1 h2 h3 h4
    simp only [detect_grid]
    rw [if_pos h1, if_neg (fun hc => h2 hc.1), if_pos h2,
      if_pos (by rw [h3, h4]; rfl)]
  · intro h1 h2 h3
    simp only [detect_grid]
    rw [if_pos h1, if_neg (fun hc => h2 hc.1), if_pos h2,
      if_neg (hmb _ _ h3)]
  · intro h1 h2 h3
    simp only [detect_grid]
    rw [if_pos h1, if_neg (fun hc => h3 hc.2), if_neg (fun hc => hc h2)]
  · intro h1 h2 h3
    simp only [detect_grid]
    rw [if_neg (fun hc => hc h1), if_pos (by rw [h2, h3]; rfl)]
  · intro h1 h2 h3
    simp only [detect_grid]
    rw [if_neg (fun hc => hc h1), if_neg (hmb _ _ h2), if_pos h3]
  · intro h1 h2 h3
    simp only [detect_grid]
    rw [if_neg (fun hc => hc h1), if_neg (hmb _ _ h2), if_neg h3]

end Geogrid

namespace Geogrid

section ConcreteEvaluation2

attribute [local semireducible] Rat.add Rat.sub Rat.mul Rat.inv Rat.ofScientific

/-- Witness for `detect_grid_1d_spec`: with no hints, the strictly monotonic
arrays `[0, 1, 2]` and `[5, 4]` are classified as a rectilinear centroid
grid, and with equal hints and equal sizes the same arrays of size 2 are a
list of points. -/
theorem detect_grid_1d_spec_witness :
    detect_grid (.one [0, 1, 2]) (.one [5, 4]) none none =
      .ok "rectilinear_2d_centroids" ∧
    detect_grid (.one [0, 1]) (.one [5, 4]) (some ["cell"]) (some ["cell"]) =
      .ok "list_of_2d_points" :=
  ⟨(detect_grid_1d_spec [0, 1, 2] [5, 4] none none).2.2.2.2.1 rfl
      (by set_option maxRecDepth 40000 in decide)
      (by set_option maxRecDepth 40000 in decide),
   (detect_grid_1d_spec [0, 1] [5, 4] (some ["cell"]) (some ["cell"])).1
      (by decide) rfl (by decide)⟩

end ConcreteEvaluation2

theorem verticesFromCentroids1d_length (x : List ℚ) :
    (verticesFromCentroids1d x).length = x.length + 1 := by
  simp [verticesFromCentroids1d]

theorem adjacentAverages_length (v : List ℚ) :
    (adjacentAverages v).length = v.length - 1 := by
  simp [adjacentAverages]

theorem extendArray_getD (x : List ℚ) (m : ℕ) (h1 : 1 ≤ m)
    (h2 : m ≤ x.length) :
    (extendArray x).getD m 0 = x.getD (m - 1) 0 := by
  obtain ⟨m', rfl⟩ : ∃ m', m = m' + 1 := ⟨m - 1, by omega⟩
  have hm' : m' < x.length := by omega
  rw [extendArray]
  simp only [List.getD_eq_getElem?_getD, List.getElem?_cons_succ,
    Nat.add_sub_cancel, List.getElem?_append]
  rw [if_pos (by simp only [List.length_cons]; omega :
    m' + 1 < ((2 * x[0]?.getD 0 - x[1]?.getD 0) :: x).length)]

theorem verticesFromCentroids1d_getD (x : List ℚ) (m : ℕ)
    (h : m < x.length + 1) :
    (verticesFromCentroids1d x).getD m 0 =
      ((extendArray x).getD m 0 + (extendArray x).getD (m + 1) 0) / 2 := by
  rw [verticesFromCentroids1d, getD_range_map _ _ m h]

/-- Closed form of the round trip at an interior index: the weighted
average of the three neighbouring centroids. -/
theorem roundtrip1d_interior (x : List ℚ) (i : ℕ) (hi1 : 1 ≤ i)
    (hi2 : i + 2 ≤ x.length) :
    (adjacentAverages (verticesFromCentroids1d x)).getD i 0 =
      (x.getD (i - 1) 0 + 2 * x.getD i 0 + x.getD (i + 1) 0) / 4 := by
  have hlt : i < (verticesFromCentroids1d x).length - 1 := by
    rw [verticesFromCentroids1d_length]; omega
  rw [adjacentAverages, getD_range_map _ _ i hlt,
    verticesFromCentroids1d_getD x i (by omega),
    verticesFromCentroids1d_getD x (i + 1) (by omega),
    extendArray_getD x i hi1 (by omega),
    extendArray_getD x (i + 1) (by omega) (by omega),
    extendArray_getD x (i + 2) (by omega) (by omega)]
  have e1 : i + 1 - 1 = i := by omega
  have e2 : i + 2 - 1 = i + 1 := by omega
  rw [e1, e2]
  ring

/-- C2 (amended): the `rectilinear_centroids_to_vertices` →
`rectilinear_vertices_to_centroids` round trip (no forced or limited
bounds) reproduces the centroid at an interior index exactly whenever that
centroid is the midpoint of its two neighbours (`x[i-1] + x[i+1] =
2*x[i]`) — in particular at every interior index of uniformly spaced axes.
In general the interior round-trip value is the weighted average
`(x[i-1] + 2*x[i] + x[i+1]) / 4`, so non-uniform interior centroids are
not reproduced (see the counterexample), while the two border centroids
always are. -/
theorem roundtrip_interior_spec (x y : List ℚ) (i j : ℕ)
    (hi1 : 1 ≤ i) (hi2 : i + 2 ≤ x.length)
    (hj1 : 1 ≤ j) (hj2 : j + 2 ≤ y.length)
    (hxa : x.getD (i - 1) 0 + x.getD (i + 1) 0 = 2 * x.getD i 0)
    (hya : y.getD (j - 1) 0 + y.getD (j + 1) 0 = 2 * y.getD j 0) :
    (rectilinear_vertices_to_centroids
        (rectilinear_centroids_to_vertices x y false false 0 0 0 0).1
        (rectilinear_centroids_to_vertices x y false false 0 0 0 0).2).1.getD
        i 0 = x.getD i 0 ∧
    (rectilinear_vertices_to_centroids
        (rectilinear_centroids_to_vertices x y false false 0 0 0 0).1
        (rectilinear_centroids_to_vertices x y false false 0 0 0 0).2).2.getD
        j 0 = y.getD j 0 := by
  simp only [rectilinear_centroids_to_vertices, rectilinear_vertices_to_centroids,
    if_neg Bool.false_ne_true]
  constructor
  · rw [roundtrip1d_interior x i hi1 hi2]
    linarith
  · rw [roundtrip1d_interior y j hj1 hj2]
    linarith

section ConcreteEvaluation3

attribute [local semireducible] Rat.add Rat.sub Rat.mul Rat.inv Rat.ofScientific

/-- Witness for `roundtrip_interior_spec`: the uniformly spaced axes
`[0, 1, 2]` round-trip exactly at the interior index 1. -/
theorem roundtrip_interior_spec_witness :
    (rectilinear_vertices_to_centroids
        (rectilinear_centroids_to_vertices [0, 1, 2] [0, 1, 2]
          false false 0 0 0 0).1
        (rectilinear_centroids_to_vertices [0, 1, 2] [0, 1, 2]
          false false 0 0 0 0).2).1.getD 1 0 = ([0, 1, 2] : List ℚ).getD 1 0 :=
  (roundtrip_interior_spec [0, 1, 2] [0, 1, 2] 1 1 (by decide) (by decide)
    (by decide) (by decide)
    (by set_option maxRecDepth 40000 in decide)
    (by set_option maxRecDepth 40000 in decide)).1

end ConcreteEvaluation3

end Geogrid

namespace Geogrid

/-- C9 (amended): for a rectilinear vertex grid,
`subdomain_grid_slices_or_points_indices` raises
`GeogridError("Geometry falls outside the grid.")` exactly when the
polygon's bbox lies entirely outside the grid in longitude (its maximum
below the smallest vertex or its minimum above the largest), **or** when
its latitude span is not fully contained in the latitude vertex range (its
minimum below the smallest vertex or its maximum above the largest — the
latitude guards are not symmetric to the longitude ones).  In particular a
bbox entirely outside the vertex range on any axis always raises, but,
contrary to the original claim, some bboxes overlapping the grid on both
axes raise as well. -/
theorem subdomain_rect_bbox_spec (dist : DistFn) (lonV latV : List ℚ)
    (g : Geometry) (h1 : lonV ≠ []) (h2 : latV ≠ []) :
    (subdomain_grid_slices_or_points_indices dist (.one lonV) (.one latV) g
        (some "rectilinear_2d_vertices") none none =
      .error "Geometry falls outside the grid." ↔
      (g.bounds.2.2.1 < listMin lonV ∨ g.bounds.1 > listMax lonV ∨
       g.bounds.2.1 < listMin latV ∨ g.bounds.2.2.2 > listMax latV)) ∧
    (g.bounds.1 ≤ g.bounds.2.2.1 → g.bounds.2.1 ≤ g.bounds.2.2.2 →
      (g.bounds.2.2.1 < listMin lonV ∨ g.bounds.1 > listMax lonV ∨
       g.bounds.2.2.2 < listMin latV ∨ g.bounds.2.1 > listMax latV) →
      subdomain_grid_slices_or_points_indices dist (.one lonV) (.one latV) g
        (some "rectilinear_2d_vertices") none none =
        .error "Geometry falls outside the grid.") := by
  obtain ⟨⟨b0, b1, b2, b3⟩, cen, cp, ip, oa, idg⟩ := g
  have hd : subdomain_grid_slices_or_points_indices dist (.one lonV)
      (.one latV) ⟨(b0, b1, b2, b3), cen, cp, ip, oa, idg⟩
      (some "rectilinear_2d_vertices") none none =
      (fun p => SubsetRes.slices p.1 p.2) <$>
        _polygon_grid_subset_from_rectilinear_vertices lonV latV
          ⟨(b0, b1, b2, b3), cen, cp, ip, oa, idg⟩ := rfl
  have hiff : subdomain_grid_slices_or_points_indices dist (.one lonV)
      (.one latV) ⟨(b0, b1, b2, b3), cen, cp, ip, oa, idg⟩
      (some "rectilinear_2d_vertices") none none =
      .error "Geometry falls outside the grid." ↔
      (b2 < listMin lonV ∨ b0 > listMax lonV ∨ b1 < listMin latV ∨
       b3 > listMax latV) := by
    rw [hd]
    unfold _polygon_grid_subset_from_rectilinear_vertices
    rw [if_neg (by simp [h1, h2])]
    by_cases c1 : b2 < listMin lonV
    · simp [c1, Except.map]
    · by_cases c2 : b0 > listMax lonV
      · simp [c1, c2, Except.map]
      · by_cases c3 : b1 < listMin latV
        · simp [c1, c2, c3, Except.map]
        · by_cases c4 : b3 > listMax latV
          · simp [c1, c2, c3, c4, Except.map]
          · simp [c1, c2, c3, c4, Except.map]
  refine ⟨hiff, fun hb1 hb2 h => hiff.mpr ?_⟩
  rcases h with h | h | h | h
  · exact Or.inl h
  · exact Or.inr (Or.inl h)
  · exact Or.inr (Or.inr (Or.inl (by linarith)))
  · exact Or.inr (Or.inr (Or.inr (by linarith)))

section ConcreteEvaluation4

attribute [local semireducible] Rat.add Rat.sub Rat.mul Rat.inv Rat.ofScientific

/-- Witness for `subdomain_rect_bbox_spec`: a bbox entirely to the right of
the grid `[0, 1] × [0, 1]` in longitude raises. -/
theorem subdomain_rect_bbox_spec_witness :
    subdomain_grid_slices_or_points_indices distZero (.one [0, 1])
      (.one [0, 1]) geomRightOf (some "rectilinear_2d_vertices") none none =
      .error "Geometry falls outside the grid." :=
  (subdomain_rect_bbox_spec distZero [0, 1] [0, 1] geomRightOf (by decide)
      (by decide)).2 (by decide) (by decide)
    (by set_option maxRecDepth 40000 in decide)

/-- Counterexample to C9 as stated: the bbox `(1/2, -1/2, 3/2, 3/2)` of
`geomLatBelow` overlaps the vertex range `[0, 2]` of the grid on both axes,
yet `subdomain_grid_slices_or_points_indices` raises `GeogridError` because
the bbox's latitude minimum lies below the smallest latitude vertex. -/
theorem subdomain_rect_bbox_overlap_cex :
    (geomLatBelow.bounds.1 ≤ listMax ([0, 1, 2] : List ℚ) ∧
     geomLatBelow.bounds.2.2.1 ≥ listMin ([0, 1, 2] : List ℚ) ∧
     geomLatBelow.bounds.2.1 ≤ listMax ([0, 1, 2] : List ℚ) ∧
     geomLatBelow.bounds.2.2.2 ≥ listMin ([0, 1, 2] : List ℚ)) ∧
    subdomain_grid_slices_or_points_indices distZero (.one [0, 1, 2])
      (.one [0, 1, 2]) geomLatBelow (some "rectilinear_2d_vertices") none
      none = .error "Geometry falls outside the grid." := by
  set_option maxRecDepth 400000 in decide

end ConcreteEvaluation4

end Geogrid

theorem getD_mem_of_lt {α : Type} (l : List α) (j : ℕ) (h : j < l.length)
    (d : α) : l.getD j d ∈ l := by
  rw [List.getD_eq_getElem?_getD, List.getElem?_eq_getElem h]
  exact List.getElem_mem h

theorem getD_eq_get {α : Type} (l : List α) (j : ℕ) (h : j < l.length)
    (d : α) : l.getD j d = l.get ⟨j, h⟩ := by
  rw [List.getD_eq_getElem?_getD, List.getElem?_eq_getElem h,
    List.get_eq_getElem]
  rfl

namespace Nctime

theorem segStart_le_segEnd (s : List ℚ) (hne : s ≠ [])
    (hs : s.Sorted (· ≤ ·)) : segStart s ≤ segEnd s :=
  sorted_headD_le s hne hs _ (getLastD_mem s 0 hne)

theorem segsWF_seg (ss : List (List ℚ)) (hwf : SegsWF ss) (j : ℕ)
    (hj : j < ss.length) :
    ss.getD j [] ≠ [] ∧ (ss.getD j []).Sorted (· ≤ ·) :=
  hwf.1 _ (getD_mem_of_lt ss j hj [])

theorem segsWF_adj (ss : List (List ℚ)) (hwf : SegsWF ss) (j : ℕ)
    (hj : j + 1 < ss.length) :
    segEnd (ss.getD j []) < segStart (ss.getD (j + 1) []) := by
  have h := List.chain'_iff_get.mp hwf.2 j (by omega)
  rw [← getD_eq_get ss j (by omega) [], ← getD_eq_get ss (j + 1) (by omega) []]
    at h
  exact h

theorem segsWF_end_lt_start (ss : List (List ℚ)) (hwf : SegsWF ss) :
    ∀ k, k < ss.length → ∀ j, j < k →
      segEnd (ss.getD j []) < segStart (ss.getD k []) := by
  intro k
  induction k with
  | zero => intro _ j hj; omega
  | succ k ih =>
    intro hk j hj
    have hadj : segEnd (ss.getD k []) < segStart (ss.getD (k + 1) []) :=
      segsWF_adj ss hwf k hk
    rcases Nat.lt_succ_iff_lt_or_eq.mp hj with hjk | rfl
    · have h1 := ih (by omega) j hjk
      have hsk := segsWF_seg ss hwf k (by omega)
      have h2 := segStart_le_segEnd (ss.getD k []) hsk.1 hsk.2
      linarith
    · exact hadj

theorem ntLoop_skip (t : ℚ) (th : Option ℚ) (s : List ℚ)
    (rest : List (List ℚ)) (i : ℕ) (prev : Option (ℚ × ℕ)) (hne : s ≠ [])
    (hse : segStart s ≤ segEnd s) (hlt : segEnd s < t) :
    ntLoop t th (s :: rest) i prev =
      ntLoop t th rest (i + 1) (some (segEnd s, s.length)) := by
  conv_lhs => rw [ntLoop.eq_def]
  dsimp only
  rw [if_neg hne, if_neg (fun hc => absurd hc.2 (not_le.mpr hlt)),
    if_neg (not_lt.mpr (le_of_lt (lt_of_le_of_lt hse hlt)))]

theorem ntLoop_reach (t : ℚ) (th : Option ℚ) :
    ∀ (k : ℕ) (ss : List (List ℚ)) (i : ℕ) (prev : Option (ℚ × ℕ)),
      k ≤ ss.length →
      (∀ j, j < k → ss.getD j [] ≠ [] ∧
        segStart (ss.getD j []) ≤ segEnd (ss.getD j []) ∧
        segEnd (ss.getD j []) < t) →
      ntLoop t th ss i prev =
        ntLoop t th (ss.drop k) (i + k)
          (if k = 0 then prev
           else some (segEnd (ss.getD (k - 1) []),
             (ss.getD (k - 1) []).length))
  | 0, ss, i, prev, _, _ => by simp
  | k + 1, [], i, prev, hk, _ => by simp at hk
  | k + 1, s :: rest, i, prev, hk, hj => by
    have h0 := hj 0 (Nat.succ_pos k)
    simp only [List.getD_cons_zero] at h0
    rw [ntLoop_skip t th s rest i prev h0.1 h0.2.1 h0.2.2]
    have hrec := ntLoop_reach t th k rest (i + 1) (some (segEnd s, s.length))
      (by simpa using hk)
      (fun j hjk => by
        have := hj (j + 1) (by omega)
        simpa using this)
    rw [hrec]
    cases k with
    | zero => simp
    | succ k' =>
      have harith : i + 1 + (k' + 1) = i + (k' + 1 + 1) := by omega
      simp [List.drop_succ_cons, List.getD_cons_succ, harith]

theorem absGaps_length (s : List ℚ) (t : ℚ) :
    (absGaps s t).length = s.length := by
  simp [absGaps]

theorem nearestIdx_spec (s : List ℚ) (t : ℚ) (hne : s ≠ []) :
    IsFirstArgmin s t (nearestIdx s t) := by
  have hgl : absGaps s t ≠ [] := by simp [absGaps, hne]
  have hlen := absGaps_length s t
  have h1 : nearestIdx s t < s.length := by
    have := firstMinIdx_lt_length _ hgl
    rw [hlen] at this
    exact this
  refine ⟨h1, ?_, ?_⟩
  · intro m hm
    have h := firstMinIdx_le (absGaps s t) m (by omega)
    rw [show absGaps s t = s.map (fun w => |w - t|) from rfl,
      show firstMinIdx (s.map fun w => |w - t|) = nearestIdx s t from rfl,
      getD_map_of_lt _ s m hm 0 0, getD_map_of_lt _ s _ h1 0 0] at h
    exact h
  · intro m hm
    have hm' : m < s.length := by
      have := firstMinIdx_lt_length (absGaps s t) hgl
      simp only [nearestIdx] at hm
      omega
    have h := firstMinIdx_first (absGaps s t) m hm
    rw [show absGaps s t = s.map (fun w => |w - t|) from rfl,
      show firstMinIdx (s.map fun w => |w - t|) = nearestIdx s t from rfl,
      getD_map_of_lt _ s m hm' 0 0, getD_map_of_lt _ s _ h1 0 0] at h
    exact h

theorem ntLoop_contains_none (t : ℚ) (s : List ℚ) (rest : List (List ℚ))
    (i : ℕ) (prev : Option (ℚ × ℕ)) (hne : s ≠ [])
    (h1 : segStart s ≤ t) (h2 : t ≤ segEnd s) :
    ntLoop t none (s :: rest) i prev = .ok (i, nearestIdx s t) := by
  conv_lhs => rw [ntLoop.eq_def]
  dsimp only
  rw [if_neg hne, if_pos ⟨h1, h2⟩]

theorem ntLoop_contains_some (t v : ℚ) (s : List ℚ) (rest : List (List ℚ))
    (i : ℕ) (prev : Option (ℚ × ℕ)) (hne : s ≠ [])
    (h1 : segStart s ≤ t) (h2 : t ≤ segEnd s) (hv : v ≠ 0)
    (hgap : |s.getD (nearestIdx s t) 0 - t| > v) :
    ntLoop t (some v) (s :: rest) i prev =
      .error "No value below threshold." := by
  conv_lhs => rw [ntLoop.eq_def]
  dsimp only
  rw [if_neg hne, if_pos ⟨h1, h2⟩, if_pos ⟨hv, hgap⟩]

theorem ntLoop_before_none (t : ℚ) (s : List ℚ) (rest : List (List ℚ))
    (i : ℕ) (pend : ℚ) (pnt : ℕ) (hne : s ≠ []) (hb : t < segStart s) :
    ntLoop t none (s :: rest) i (some (pend, pnt)) =
      .ok (if |pend - t| ≤ |segStart s - t| then (i - 1, pnt - 1)
        else (i, 0)) := by
  conv_lhs => rw [ntLoop.eq_def]
  dsimp only
  rw [if_neg hne, if_neg (fun hc => absurd hc.1 (not_le.mpr hb)), if_pos hb]
  split_ifs with hle
  · rfl
  · rfl

theorem ntLoop_before_some (t v : ℚ) (s : List ℚ) (rest : List (List ℚ))
    (i : ℕ) (pend : ℚ) (pnt : ℕ) (hne : s ≠ []) (hb : t < segStart s)
    (hv : v ≠ 0) (hgap : min |pend - t| |segStart s - t| > v) :
    ntLoop t (some v) (s :: rest) i (some (pend, pnt)) =
      .error "No value below threshold." := by
  conv_lhs => rw [ntLoop.eq_def]
  dsimp only
  rw [if_neg hne, if_neg (fun hc => absurd hc.1 (not_le.mpr hb)), if_pos hb]
  rcases le_or_lt |pend - t| |segStart s - t| with hle | hlt
  · rw [if_pos hle, if_pos ⟨hv, by rw [min_eq_left hle] at hgap; exact hgap⟩]
  · rw [if_neg (not_le.mpr hlt),
      if_pos ⟨hv, by rw [min_eq_right (le_of_lt hlt)] at hgap; exact hgap⟩]

theorem getD_eq_getElem_of_lt {α : Type} (l : List α) (j : ℕ)
    (h : j < l.length) (d : α) : l.getD j d = l[j] := by
  rw [List.getD_eq_getElem?_getD, List.getElem?_eq_getElem h]
  rfl

/-- C3 (amended): over a well-formed multi-file time axis, `nearest_time`
(numeric query) obeys the scan policy.  If `t` lies within file `k`'s
`[start, end]` interval, it returns `(k, j)` with `j` the first arg-min of
`|time - t|` within that file; if `t` falls strictly between file `k-1`'s
end and file `k`'s start, it returns the previous file's last index or the
current file's first index, whichever has the smaller gap to `t`, the
previous file winning ties.  When a **nonzero** threshold is given and the
chosen candidate's gap exceeds it, the search fails instead (a threshold of
exactly 0 is falsy in Python and is ignored — see the counterexample). -/
theorem nearest_time_scan_spec (ss : List (List ℚ)) (t v : ℚ) (k : ℕ)
    (hwf : SegsWF ss) (hk : k < ss.length) :
    (segStart (ss.getD k []) ≤ t → t ≤ segEnd (ss.getD k []) →
      (nearest_time ss t none = .ok (k, nearestIdx (ss.getD k []) t) ∧
       IsFirstArgmin (ss.getD k []) t (nearestIdx (ss.getD k []) t) ∧
       (v ≠ 0 → nearestGap (ss.getD k []) t > v →
         nearest_time ss t (some v) = .error "No value below threshold."))) ∧
    (1 ≤ k → segEnd (ss.getD (k - 1) []) < t → t < segStart (ss.getD k []) →
      (nearest_time ss t none =
        .ok (if |segEnd (ss.getD (k - 1) []) - t| ≤
            |segStart (ss.getD k []) - t|
          then (k - 1, (ss.getD (k - 1) []).length - 1) else (k, 0)) ∧
       (v ≠ 0 →
         min |segEnd (ss.getD (k - 1) []) - t|
           |segStart (ss.getD k []) - t| > v →
         nearest_time ss t (some v) =
           .error "No value below threshold."))) := by
  have hsegk := segsWF_seg ss hwf k hk
  have hdrop : ss.drop k = ss.getD k [] :: ss.drop (k + 1) := by
    rw [List.drop_eq_getElem_cons hk, getD_eq_getElem_of_lt ss k hk]
  constructor
  · intro hst hend
    have hprem : ∀ j, j < k → ss.getD j [] ≠ [] ∧
        segStart (ss.getD j []) ≤ segEnd (ss.getD j []) ∧
        segEnd (ss.getD j []) < t := by
      intro j hj
      have hsj := segsWF_seg ss hwf j (by omega)
      exact ⟨hsj.1, segStart_le_segEnd _ hsj.1 hsj.2,
        lt_of_lt_of_le (segsWF_end_lt_start ss hwf k hk j hj) hst⟩
    refine ⟨?_, nearestIdx_spec _ t hsegk.1, ?_⟩
    · rw [nearest_time,
        ntLoop_reach t none k ss 0 none (le_of_lt hk) hprem, hdrop]
      simp only [Nat.zero_add]
      exact ntLoop_contains_none t _ _ k _ hsegk.1 hst hend
    · intro hv hgap
      rw [nearest_time,
        ntLoop_reach t (some v) k ss 0 none (le_of_lt hk) hprem, hdrop]
      simp only [Nat.zero_add]
      exact ntLoop_contains_some t v _ _ k _ hsegk.1 hst hend hv
        (by simpa [nearestGap] using hgap)
  · intro hk1 hpend hst
    have hsegp := segsWF_seg ss hwf (k - 1) (by omega)
    have hprem : ∀ j, j < k → ss.getD j [] ≠ [] ∧
        segStart (ss.getD j []) ≤ segEnd (ss.getD j []) ∧
        segEnd (ss.getD j []) < t := by
      intro j hj
      have hsj := segsWF_seg ss hwf j (by omega)
      refine ⟨hsj.1, segStart_le_segEnd _ hsj.1 hsj.2, ?_⟩
      by_cases hjk : j = k - 1
      · subst hjk; exact hpend
      · have h1 := segsWF_end_lt_start ss hwf (k - 1) (by omega) j
          (by omega)
        have h2 := segStart_le_segEnd _ hsegp.1 hsegp.2
        linarith
    have hif : (if k = 0 then (none : Option (ℚ × ℕ))
        else some (segEnd (ss.getD (k - 1) []),
          (ss.getD (k - 1) []).length)) =
        some (segEnd (ss.getD (k - 1) []), (ss.getD (k - 1) []).length) :=
      if_neg (by omega)
    constructor
    · rw [nearest_time,
        ntLoop_reach t none k ss 0 none (le_of_lt hk) hprem, hif, hdrop]
      simp only [Nat.zero_add]
      exact ntLoop_before_none t _ _ k _ _ hsegk.1 hst
    · intro hv hgap
      rw [nearest_time,
        ntLoop_reach t (some v) k ss 0 none (le_of_lt hk) hprem, hif, hdrop]
      simp only [Nat.zero_add]
      exact ntLoop_before_some t v _ _ k _ _ hsegk.1 hst hv hgap

/-- C4: for a well-formed nonempty multi-file time axis and a query strictly
before the first file's first time value, `nearest_time` with no threshold
returns the **last** local index of the first file, `(0, n0 - 1)`, not
`(0, 0)`: the first iteration has no previous file and falls through, and
the subsequent gap comparison (or the end-of-loop return when there is a
single file) selects the tracked previous-file end. -/
theorem nearest_time_before_first_spec (ss : List (List ℚ)) (t : ℚ)
    (hwf : SegsWF ss) (hne : ss ≠ [])
    (hb : t < segStart (ss.getD 0 [])) :
    nearest_time ss t none = .ok (0, (ss.getD 0 []).length - 1) := by
  cases ss with
  | nil => exact absurd rfl hne
  | cons s rest =>
    have hs0 := segsWF_seg (s :: rest) hwf 0 (by simp)
    simp only [List.getD_cons_zero] at hs0 hb ⊢
    have hte : t < segEnd s :=
      lt_of_lt_of_le hb (segStart_le_segEnd s hs0.1 hs0.2)
    rw [nearest_time]
    conv_lhs => rw [ntLoop.eq_def]
    dsimp only
    rw [if_neg hs0.1, if_neg (fun hc => absurd hc.1 (not_le.mpr hb)),
      if_pos hb]
    cases rest with
    | nil => rfl
    | cons s1 rest' =>
      have hs1 := segsWF_seg (s :: s1 :: rest') hwf 1 (by simp)
      simp only [List.getD_cons_succ, List.getD_cons_zero] at hs1
      have hadj := segsWF_adj (s :: s1 :: rest') hwf 0 (by simp)
      simp only [List.getD_cons_zero, List.getD_cons_succ] at hadj
      have hts1 : t < segStart s1 := lt_trans hte hadj
      conv_lhs => rw [ntLoop.eq_def]
      dsimp only
      rw [if_neg hs1.1, if_neg (fun hc => absurd hc.1 (not_le.mpr hts1)),
        if_pos hts1]
      have hpd : |segEnd s - t| ≤ |segStart s1 - t| := by
        rw [abs_of_pos (by linarith), abs_of_pos (by linarith)]
        linarith
      rw [if_pos hpd]

section ConcreteEvaluation5

attribute [local semireducible] Rat.add Rat.sub Rat.mul Rat.inv Rat.ofScientific

/-- Counterexample to C3 as stated: with the threshold **given** as `0`, the
query `t = 5` on the single file `[0, 1]` has gap `|1 - 5| = 4 > 0`, yet
`nearest_time` returns the candidate `(0, 1)` instead of failing —
`threshold and (...)` is falsy in Python for a zero threshold. -/
theorem nearest_time_threshold_zero_cex :
    nearest_time [[0, 1]] 5 (some 0) = .ok (0, 1) ∧ |(1 : ℚ) - 5| > 0 := by
  set_option maxRecDepth 40000 in decide

/-- Witness for `nearest_time_scan_spec`: on the files `[0, 1]` and
`[3, 4]`, the query 3 is contained in the second file (index `(1, 0)`),
the query 2 between the files resolves the tie to the previous file's last
index `(0, 1)`, and the query `5/2` with threshold `1/4` fails. -/
theorem nearest_time_scan_spec_witness :
    nearest_time [[(0 : ℚ), 1], [3, 4]] 3 none = .ok (1, 0) ∧
    nearest_time [[(0 : ℚ), 1], [3, 4]] 2 none = .ok (0, 1) ∧
    nearest_time [[(0 : ℚ), 1], [3, 4]] (5/2) (some (1/4)) =
      .error "No value below threshold." := by
  have hwf : SegsWF [[(0 : ℚ), 1], [3, 4]] := by
    refine ⟨by decide, ?_⟩
    rw [List.chain'_cons]
    exact ⟨by decide, List.chain'_singleton _⟩
  refine ⟨?_, ?_, ?_⟩
  · have h := ((nearest_time_scan_spec [[(0 : ℚ), 1], [3, 4]] 3 1 1 hwf
      (by decide)).1 (by decide) (by decide)).1
    rw [h]
    rw [show nearestIdx ([[(0 : ℚ), 1], [3, 4]].getD 1 []) 3 = 0 by decide]
  · have h := ((nearest_time_scan_spec [[(0 : ℚ), 1], [3, 4]] 2 1 1 hwf
      (by decide)).2 (by decide) (by decide) (by decide)).1
    have hcond : |segEnd ([[(0 : ℚ), 1], [3, 4]].getD (1 - 1) []) - 2| ≤
        |segStart ([[(0 : ℚ), 1], [3, 4]].getD 1 []) - 2| := by
      set_option maxRecDepth 40000 in decide
    rw [h, if_pos hcond]
    rfl
  · exact ((nearest_time_scan_spec [[(0 : ℚ), 1], [3, 4]] (5/2) (1/4) 1 hwf
      (by decide)).2 (by decide)
      (by set_option maxRecDepth 40000 in decide)
      (by set_option maxRecDepth 40000 in decide)).2
      (by decide) (by set_option maxRecDepth 40000 in decide)

/-- Witness for `nearest_time_before_first_spec`: the query `-5`, before
both files `[0, 1]` and `[3, 4]`, returns `(0, 1)` — the last index of the
first file. -/
theorem nearest_time_before_first_spec_witness :
    nearest_time [[(0 : ℚ), 1], [3, 4]] (-5) none = .ok (0, 1) := by
  have hwf : SegsWF [[(0 : ℚ), 1], [3, 4]] := by
    refine ⟨by decide, ?_⟩
    rw [List.chain'_cons]
    exact ⟨by decide, List.chain'_singleton _⟩
  have h := nearest_time_before_first_spec [[(0 : ℚ), 1], [3, 4]] (-5)
    hwf (by decide)
    (by set_option maxRecDepth 40000 in decide)
  simpa using h

end ConcreteEvaluation5

end Nctime

theorem getD_range_map_gen {α : Type} (n : ℕ) (f : ℕ → α) (i : ℕ)
    (h : i < n) (d : α) : ((List.range n).map f).getD i d = f i := by
  rw [List.getD_eq_getElem?_getD, List.getElem?_map, List.getElem?_range h]
  rfl

theorem exceptBind_ok {α β : Type} (a : α) (f : α → Except String β) :
    (Except.ok a >>= f) = f a := rfl

theorem exceptBind_error {α β : Type} (e : String)
    (f : α → Except String β) :
    ((Except.error e : Except String α) >>= f) = Except.error e := rfl

theorem exceptMap_ok {α β : Type} (g : α → β) (a : α) :
    (g <$> (Except.ok a : Except String α)) = Except.ok (g a) := rfl

theorem exceptMap_error {α β : Type} (g : α → β) (e : String) :
    (g <$> (Except.error e : Except String α)) = Except.error e := rfl

theorem mapME_ok_length {α β : Type} (f : α → Except String β) :
    ∀ (l : List α) (l' : List β), mapME f l = .ok l' → l'.length = l.length
  | [], l', h => by
    simp only [mapME] at h
    cases h
    rfl
  | a :: l, l', h => by
    simp only [mapME] at h
    cases hfa : f a with
    | error e => rw [hfa, exceptBind_error] at h; simp at h
    | ok b =>
      rw [hfa, exceptBind_ok] at h
      cases hrec : mapME f l with
      | error e => rw [hrec, exceptBind_error] at h; simp at h
      | ok tl =>
        rw [hrec, exceptBind_ok] at h
        simp only [pure, Except.pure] at h
        cases h
        simp [mapME_ok_length f l tl hrec]

theorem mapME_ok_forall2 {α β : Type} (f : α → Except String β) :
    ∀ (l : List α) (l' : List β), mapME f l = .ok l' →
      List.Forall₂ (fun a b => f a = .ok b) l l'
  | [], l', h => by
    simp only [mapME] at h
    cases h
    exact List.Forall₂.nil
  | a :: l, l', h => by
    simp only [mapME] at h
    cases hfa : f a with
    | error e => rw [hfa, exceptBind_error] at h; simp at h
    | ok b =>
      rw [hfa, exceptBind_ok] at h
      cases hrec : mapME f l with
      | error e => rw [hrec, exceptBind_error] at h; simp at h
      | ok tl =>
        rw [hrec, exceptBind_ok] at h
        simp only [pure, Except.pure] at h
        cases h
        exact List.Forall₂.cons hfa (mapME_ok_forall2 f l tl hrec)

theorem forall2_getD {α β : Type} (R : α → β → Prop) (l : List α)
    (l' : List β) (h : List.Forall₂ R l l') (m : ℕ) (hm : m < l.length)
    (da : α) (db : β) : R (l.getD m da) (l'.getD m db) := by
  obtain ⟨hlen, hget⟩ := List.forall₂_iff_get.mp h
  rw [getD_eq_get l m hm da, getD_eq_get l' m (by omega) db]
  exact hget m hm (by omega)

theorem intRange_length (a b : ℤ) : (intRange a b).length = (b - a).toNat := by
  simp [intRange]

theorem intRange_getD (a b : ℤ) (m : ℕ) (h : m < (b - a).toNat) :
    (intRange a b).getD m 0 = a + m := by
  rw [intRange, getD_range_map_gen _ _ m h]
  rfl

theorem pySliceIdx_of_nonneg (n : ℕ) (a : ℤ) (ha : 0 ≤ a)
    (han : a ≤ (n : ℤ)) : pySliceIdx n a = a.toNat := by
  simp only [pySliceIdx, if_neg (not_lt.mpr ha)]
  omega

theorem pySlice_length {α : Type} (xs : List α) (a b : ℤ) (ha : 0 ≤ a)
    (hab : a ≤ b) (hb : b ≤ (xs.length : ℤ)) :
    (pySlice xs a b).length = (b - a).toNat := by
  simp only [pySlice, pySliceIdx_of_nonneg xs.length a ha (by omega),
    pySliceIdx_of_nonneg xs.length b (by omega) hb, List.length_take,
    List.length_drop]
  omega

theorem pySlice_getD {α : Type} (xs : List α) (a b : ℤ) (ha : 0 ≤ a)
    (hab : a ≤ b) (hb : b ≤ (xs.length : ℤ)) (m : ℕ)
    (hm : m < (b - a).toNat) (d : α) :
    (pySlice xs a b).getD m d = xs.getD (a.toNat + m) d := by
  have hl : (pySlice xs a b).length = (b - a).toNat :=
    pySlice_length xs a b ha hab hb
  have hm2 : a.toNat + m < xs.length := by omega
  rw [Nctime.getD_eq_getElem_of_lt _ m (by omega) d,
    Nctime.getD_eq_getElem_of_lt _ (a.toNat + m) hm2 d]
  simp only [pySlice, pySliceIdx_of_nonneg xs.length a ha (by omega),
    pySliceIdx_of_nonneg xs.length b (by omega) hb]
  rw [List.getElem_take, List.getElem_drop]

theorem sum2_cons (r : List ℚ) (t : List (List ℚ)) :
    sum2 (r :: t) = r.sum + sum2 t := by
  simp [sum2]

theorem sum_map_div (l : List ℚ) (c : ℚ) :
    (l.map (fun a => a / c)).sum = l.sum / c := by
  induction l with
  | nil => simp
  | cons a t ih => simp [ih, add_div]

theorem sum2_map_div (w : List (List ℚ)) (c : ℚ) :
    sum2 (w.map (fun row => row.map (fun a => a / c))) = sum2 w / c := by
  induction w with
  | nil => simp [sum2]
  | cons r t ih =>
    rw [List.map_cons, sum2_cons, sum2_cons, ih, sum_map_div, add_div]

theorem sum_zero_of_getD (l : List ℚ)
    (h : ∀ m, m < l.length → l.getD m 0 = 0) : l.sum = 0 := by
  induction l with
  | nil => rfl
  | cons a t ih =>
    have ha := h 0 (by simp)
    simp only [List.getD_cons_zero] at ha
    rw [List.sum_cons, ha, ih (fun m hm => by
      have := h (m + 1) (by simpa using Nat.succ_lt_succ hm)
      simpa using this)]
    ring

theorem sum_one_of_onehot : ∀ (l : List ℚ) (q : ℕ), q < l.length →
    l.getD q 0 = 1 → (∀ m, m < l.length → m ≠ q → l.getD m 0 = 0) →
    l.sum = 1
  | [], q, hq, _, _ => by simp at hq
  | a :: t, 0, hq, h1, h0 => by
    simp only [List.getD_cons_zero] at h1
    rw [List.sum_cons, h1, sum_zero_of_getD t (fun m hm => by
      have := h0 (m + 1) (by simpa using Nat.succ_lt_succ hm) (by omega)
      simpa using this)]
    ring
  | a :: t, q + 1, hq, h1, h0 => by
    have ha := h0 0 (by simp) (by omega)
    simp only [List.getD_cons_zero] at ha
    simp only [List.getD_cons_succ] at h1
    rw [List.sum_cons, ha,
      sum_one_of_onehot t q (by simpa using hq) h1 (fun m hm hmq => by
        have := h0 (m + 1) (by simpa using Nat.succ_lt_succ hm) (by omega)
        simpa using this)]
    ring

theorem sum2_zero_of_getD (W : List (List ℚ))
    (h : ∀ p' q', p' < W.length → q' < (W.getD p' []).length →
      (W.getD p' []).getD q' 0 = 0) : sum2 W = 0 := by
  induction W with
  | nil => rfl
  | cons r t ih =>
    rw [sum2_cons, sum_zero_of_getD r (fun m hm => by
        have := h 0 m (by simp) (by simpa using hm)
        simpa using this),
      ih (fun p' q' hp hq => by
        have := h (p' + 1) q' (by simpa using Nat.succ_lt_succ hp)
          (by simpa using hq)
        simpa using this)]
    ring

theorem sum2_one_of_onehot : ∀ (W : List (List ℚ)) (p q : ℕ),
    p < W.length → q < (W.getD p []).length →
    (W.getD p []).getD q 0 = 1 →
    (∀ p' q', p' < W.length → q' < (W.getD p' []).length →
      (p', q') ≠ (p, q) → (W.getD p' []).getD q' 0 = 0) →
    sum2 W = 1
  | [], p, q, hp, _, _, _ => by simp at hp
  | r :: t, 0, q, hp, hq, h1, h0 => by
    simp only [List.getD_cons_zero] at hq h1
    rw [sum2_cons,
      sum_one_of_onehot r q hq h1 (fun m hm hmq => by
        have := h0 0 m (by simp) (by simpa using hm) (by simp [hmq])
        simpa using this),
      sum2_zero_of_getD t (fun p' q' hp' hq' => by
        have := h0 (p' + 1) q' (by simpa using Nat.succ_lt_succ hp')
          (by simpa using hq') (by simp)
        simpa using this)]
    ring
  | r :: t, p + 1, q, hp, hq, h1, h0 => by
    simp only [List.getD_cons_succ] at hq h1
    rw [sum2_cons,
      sum_zero_of_getD r (fun m hm => by
        have := h0 0 m (by simp) (by simpa using hm) (by simp)
        simpa using this),
      sum2_one_of_onehot t p q (by simpa using hp) hq h1
        (fun p' q' hp' hq' hne => by
          have := h0 (p' + 1) q' (by simpa using Nat.succ_lt_succ hp')
            (by simpa using hq') (by simp [Prod.ext_iff] at hne ⊢; omega)
          simpa using this)]
    ring

theorem sum_support_single : ∀ (l : List ℚ) (q : ℕ), q < l.length →
    (∀ m, m < l.length → m ≠ q → l.getD m 0 = 0) → l.sum = l.getD q 0
  | [], q, hq, _ => by simp at hq
  | a :: t, 0, _, h0 => by
    rw [List.sum_cons, List.getD_cons_zero, sum_zero_of_getD t (fun m hm => by
      have := h0 (m + 1) (by simpa using Nat.succ_lt_succ hm) (by omega)
      simpa using this)]
    ring
  | a :: t, q + 1, hq, h0 => by
    have ha := h0 0 (by simp) (by omega)
    simp only [List.getD_cons_zero] at ha
    rw [List.sum_cons, ha, List.getD_cons_succ,
      sum_support_single t q (by simpa using hq) (fun m hm hmq => by
        have := h0 (m + 1) (by simpa using Nat.succ_lt_succ hm) (by omega)
        simpa using this)]
    ring

theorem sum2_support_single : ∀ (W : List (List ℚ)) (p q : ℕ),
    p < W.length → q < (W.getD p []).length →
    (∀ p' q', p' < W.length → q' < (W.getD p' []).length →
      (p', q') ≠ (p, q) → (W.getD p' []).getD q' 0 = 0) →
    sum2 W = (W.getD p []).getD q 0
  | [], p, q, hp, _, _ => by simp at hp
  | r :: t, 0, q, hp, hq, h0 => by
    simp only [List.getD_cons_zero] at hq ⊢
    rw [sum2_cons,
      sum_support_single r q hq (fun m hm hmq => by
        have := h0 0 m (by simp) (by simpa using hm) (by simp [hmq])
        simpa using this),
      sum2_zero_of_getD t (fun p' q' hp' hq' => by
        have := h0 (p' + 1) q' (by simpa using Nat.succ_lt_succ hp')
          (by simpa using hq') (by simp)
        simpa using this)]
    ring
  | r :: t, p + 1, q, hp, hq, h0 => by
    simp only [List.getD_cons_succ] at hq ⊢
    rw [sum2_cons,
      sum_zero_of_getD r (fun m hm => by
        have := h0 0 m (by simp) (by simpa using hm) (by simp)
        simpa using this),
      sum2_support_single t p q (by simpa using hp) hq
        (fun p' q' hp' hq' hne => by
          have := h0 (p' + 1) q' (by simpa using Nat.succ_lt_succ hp')
            (by simpa using hq') (by simp [Prod.ext_iff] at hne ⊢; omega)
          simpa using this)]
    ring

theorem zipWith_getD {α β γ : Type} (f : α → β → γ) (l : List α)
    (l' : List β) (m : ℕ) (hm : m < l.length) (hm2 : m < l'.length)
    (da : α) (db : β) (dc : γ) :
    (List.zipWith f l l').getD m dc = f (l.getD m da) (l'.getD m db) := by
  have hz : m < (List.zipWith f l l').length := by
    rw [List.length_zipWith]; omega
  rw [Nctime.getD_eq_getElem_of_lt _ m hz dc,
    Nctime.getD_eq_getElem_of_lt _ m hm da,
    Nctime.getD_eq_getElem_of_lt _ m hm2 db,
    List.getElem_zipWith]

theorem sum2_zip_onehot (F W : List (List ℚ)) (hlen : F.length = W.length)
    (hrow : ∀ p', p' < W.length →
      (F.getD p' []).length = (W.getD p' []).length)
    (p q : ℕ) (hp : p < W.length) (hq : q < (W.getD p []).length)
    (h1 : (W.getD p []).getD q 0 = 1)
    (h0 : ∀ p' q', p' < W.length → q' < (W.getD p' []).length →
      (p', q') ≠ (p, q) → (W.getD p' []).getD q' 0 = 0) :
    sum2 (List.zipWith (fun fr wr =>
      List.zipWith (fun a b => a * b) fr wr) F W) =
      (F.getD p []).getD q 0 := by
  have hZlen : (List.zipWith (fun fr wr =>
      List.zipWith (fun a b => a * b) fr wr) F W).length = W.length := by
    rw [List.length_zipWith, hlen, min_self]
  have hZrow : ∀ p', p' < W.length →
      (List.zipWith (fun fr wr =>
        List.zipWith (fun a b => a * b) fr wr) F W).getD p' [] =
        List.zipWith (fun a b => a * b) (F.getD p' []) (W.getD p' []) := by
    intro p' hp'
    exact zipWith_getD _ F W p' (by omega) hp' [] [] []
  have hZrowlen : ∀ p', p' < W.length →
      (List.zipWith (fun a b => a * b)
        (F.getD p' []) (W.getD p' [])).length = (W.getD p' []).length := by
    intro p' hp'
    rw [List.length_zipWith, hrow p' hp', min_self]
  rw [sum2_support_single
      (List.zipWith (fun fr wr =>
        List.zipWith (fun a b => a * b) fr wr) F W) p q
      (by rw [hZlen]; exact hp)
      (by rw [hZrow p hp, hZrowlen p hp]; exact hq)
      (fun p' q' hp' hq' hne => by
        rw [hZlen] at hp'
        rw [hZrow p' hp'] at hq' ⊢
        rw [hZrowlen p' hp'] at hq'
        rw [zipWith_getD (fun a b => a * b) (F.getD p' []) (W.getD p' []) q'
            (by rw [hrow p' hp']; exact hq') hq' 0 0 0,
          h0 p' q' hp' hq' hne, mul_zero]),
    hZrow p hp,
    zipWith_getD (fun a b => a * b) (F.getD p []) (W.getD p []) q
      (by rw [hrow p hp]; exact hq) hq 0 0 0, h1, mul_one]

theorem exceptBind_ok_inv {α β : Type} (x : Except String α)
    (f : α → Except String β) (b : β) (h : (x >>= f) = .ok b) :
    ∃ a, x = .ok a ∧ f a = .ok b := by
  cases x with
  | error e => rw [exceptBind_error] at h; simp at h
  | ok a =>
    rw [exceptBind_ok] at h
    exact ⟨a, rfl, h⟩

namespace Geogrid

theorem spatialWeightsRect_ok (g : Geometry)
    (polyArea : List (ℚ × ℚ) → ℚ) (lonV latV : List ℚ)
    (slon slat : ℤ × ℤ) (w : List (List ℚ))
    (hw : spatialWeightsRect g polyArea lonV latV = .ok (slon, slat, w)) :
    w.length = (slat.2 - slat.1).toNat ∧
    (∀ p, p < w.length →
      (w.getD p []).length = (slon.2 - slon.1).toNat) := by
  unfold spatialWeightsRect at hw
  obtain ⟨sl, hsub, hw⟩ := exceptBind_ok_inv _ _ _ hw
  obtain ⟨w0, hmap, hw⟩ := exceptBind_ok_inv _ _ _ hw
  simp only [pure, Except.pure, Except.ok.injEq, Prod.mk.injEq] at hw
  obtain ⟨h1, h2, h3⟩ := hw
  subst h1
  subst h2
  subst h3
  have hlen := mapME_ok_length _ _ _ hmap
  rw [intRange_length] at hlen
  refine ⟨hlen, ?_⟩
  intro p hp
  have hf := mapME_ok_forall2 _ _ _ hmap
  have hp2 : p < (intRange sl.2.1 sl.2.2).length := by
    rw [intRange_length]; omega
  have hrow := forall2_getD _ _ _ hf p hp2 0 []
  rw [mapME_ok_length _ _ _ hrow, intRange_length]

theorem spatial_weighted_average_eval (dist : DistFn) (g : Geometry)
    (polyArea : List (ℚ × ℚ) → ℚ) (lonV latV : List ℚ)
    (field : List (List ℚ)) (slon slat : ℤ × ℤ) (w : List (List ℚ))
    (hw : spatialWeightsRect g polyArea lonV latV = .ok (slon, slat, w)) :
    spatial_weighted_average dist g polyArea (.one lonV) (.one latV)
      field =
      .ok (sum2 (List.zipWith (fun fr wr =>
        List.zipWith (fun a b => a * b) fr wr)
        ((pySlice field slat.1 slat.2).map
          (fun row => pySlice row slon.1 slon.2))
        (w.map (fun row => row.map (fun a => a / sum2 w))))) := by
  unfold spatial_weighted_average
  dsimp only
  rw [hw, exceptBind_ok]
  rfl

/-- C8 (amended): for the rectilinear branch of `spatial_weighted_average`,
whenever the weight computation succeeds (the bbox guards pass and every
cell lookup stays in range — otherwise an `IndexError` escapes, see the
counterexample) and the total raw weight is nonzero, the renormalized
per-cell weights sum to exactly 1.  If moreover the subset slices lie
within the field and exactly one candidate cell carries raw weight 1 (the
polygon fully covers that cell, `area/cell_area = 1`) while every other
candidate cell carries weight 0, the returned weighted average is exactly
that cell's field value. -/
theorem spatial_weighted_average_weights_spec (dist : DistFn)
    (g : Geometry) (polyArea : List (ℚ × ℚ) → ℚ) (lonV latV : List ℚ)
    (field : List (List ℚ)) (slon slat : ℤ × ℤ) (w : List (List ℚ))
    (hw : spatialWeightsRect g polyArea lonV latV = .ok (slon, slat, w))
    (htot : sum2 w ≠ 0) :
    sum2 (w.map (fun row => row.map (fun a => a / sum2 w))) = 1 ∧
    (∀ p q : ℕ, 0 ≤ slat.1 → slat.2 ≤ (field.length : ℤ) → 0 ≤ slon.1 →
      (∀ row ∈ field, slon.2 ≤ (row.length : ℤ)) →
      p < w.length → q < (w.getD p []).length →
      (w.getD p []).getD q 0 = 1 →
      (∀ p' q', p' < w.length → q' < (w.getD p' []).length →
        (p', q') ≠ (p, q) → (w.getD p' []).getD q' 0 = 0) →
      spatial_weighted_average dist g polyArea (.one lonV) (.one latV)
        field =
        .ok ((field.getD (slat.1.toNat + p) []).getD
          (slon.1.toNat + q) 0)) := by
  obtain ⟨hlen, hrowlen⟩ :=
    spatialWeightsRect_ok g polyArea lonV latV slon slat w hw
  refine ⟨by rw [sum2_map_div, div_self htot], ?_⟩
  intro p q hlat1 hlat2 hlon1 hlon2 hp hq h1 h0
  have htot1 : sum2 w = 1 := sum2_one_of_onehot w p q hp hq h1 h0
  have hslat : slat.1 < slat.2 := by omega
  have hrl := hrowlen p hp
  have hslon : slon.1 < slon.2 := by omega
  have hFsl : (pySlice field slat.1 slat.2).length = w.length := by
    rw [pySlice_length field slat.1 slat.2 hlat1 (le_of_lt hslat) hlat2,
      hlen]
  have hFlen : ((pySlice field slat.1 slat.2).map
      (fun row => pySlice row slon.1 slon.2)).length = w.length := by
    rw [List.length_map, hFsl]
  have hFrow : ∀ p', p' < w.length →
      ((pySlice field slat.1 slat.2).map
        (fun row => pySlice row slon.1 slon.2)).getD p' [] =
        pySlice (field.getD (slat.1.toNat + p') []) slon.1 slon.2 := by
    intro p' hp'
    rw [getD_map_of_lt _ _ p' (by omega) [] [],
      pySlice_getD field slat.1 slat.2 hlat1 (le_of_lt hslat) hlat2 p'
        (by omega) []]
  have hmem : ∀ p', p' < w.length →
      field.getD (slat.1.toNat + p') [] ∈ field := by
    intro p' hp'
    exact getD_mem_of_lt field (slat.1.toNat + p') (by omega) []
  have hFrowlen : ∀ p', p' < w.length →
      (((pySlice field slat.1 slat.2).map
        (fun row => pySlice row slon.1 slon.2)).getD p' []).length =
        (w.getD p' []).length := by
    intro p' hp'
    rw [hFrow p' hp',
      pySlice_length _ slon.1 slon.2 hlon1 (le_of_lt hslon)
        (hlon2 _ (hmem p' hp')), hrowlen p' hp']
  have hwn : w.map (fun row => row.map (fun a => a / sum2 w)) = w := by
    rw [htot1]
    simp
  rw [spatial_weighted_average_eval dist g polyArea lonV latV field slon
    slat w hw, hwn,
    sum2_zip_onehot _ w hFlen hFrowlen p q hp hq h1 h0, hFrow p hp,
    pySlice_getD (field.getD (slat.1.toNat + p) []) slon.1 slon.2 hlon1
      (le_of_lt hslon) (hlon2 _ (hmem p hp)) q (by omega) 0]

section ConcreteEvaluation6

attribute [local semireducible] Rat.add Rat.sub Rat.mul Rat.inv Rat.ofScientific

/-- Counterexample to C8 as stated ("for every vertex mesh, polygon and
field ... the weights sum to 1"): the triangle `(3/2, 1/2), (5/2, 1/2),
(5/2, 3/2)` on the 2×2 grid with vertices `[0, 1, 2]` per axis slips past
the bbox guards (its longitude maximum `5/2` exceeds the last vertex but
the guard only fires when the whole bbox lies outside), so the weight loop
evaluates `lon_vertices[3]` and the call raises `IndexError` instead of
producing any weights. -/
theorem spatial_weighted_average_pastedge_cex :
    spatial_weighted_average distZero geomPastEdge polyAreaOne
      (.one [0, 1, 2]) (.one [0, 1, 2]) [[1, 2], [3, 4]] =
      .error "IndexError" := by
  set_option maxRecDepth 400000 in decide

/-- Witness for C8: the polygon with bbox `(1/4, 1/4, 3/4, 3/4)` on the
grid `[0, 1, 2] × [0, 1, 2]` selects the single cell `[0,1]×[0,1]` with
raw weight `1`; the hypotheses of the claim theorem hold and the average
over the field `[[7, 8], [9, 10]]` is exactly that cell's value `7`. -/
theorem spatial_weighted_average_weights_spec_witness :
    spatialWeightsRect geomSingleCell polyAreaOne [0, 1, 2] [0, 1, 2] =
      .ok ((0, 1), (0, 1), [[1]]) ∧
    spatial_weighted_average distZero geomSingleCell polyAreaOne
      (.one [0, 1, 2]) (.one [0, 1, 2]) [[7, 8], [9, 10]] = .ok 7 := by
  have hw : spatialWeightsRect geomSingleCell polyAreaOne [0, 1, 2]
      [0, 1, 2] = .ok ((0, 1), (0, 1), [[1]]) := by
    set_option maxRecDepth 400000 in decide
  have htot : sum2 [[(1 : ℚ)]] ≠ 0 := by decide
  refine ⟨hw, ?_⟩
  have h := (spatial_weighted_average_weights_spec distZero geomSingleCell
      polyAreaOne [0, 1, 2] [0, 1, 2] [[7, 8], [9, 10]] (0, 1) (0, 1)
      [[1]] hw htot).2 0 0 (by decide) (by decide) (by decide)
      (by decide) (by decide) (by decide) (by decide)
      (by
        intro p' q' hp' hq' hne
        have hp0 : p' = 0 := by
          simp only [List.length_cons, List.length_nil] at hp'
          omega
        subst hp0
        have hq0 : q' = 0 := by
          simp only [List.getD_cons_zero, List.length_cons,
            List.length_nil] at hq'
          omega
        subst hq0
        exact absurd rfl hne)
  exact h.trans (by decide)

end ConcreteEvaluation6

end Geogrid
